import Mathlib

/-!
# The execution core of the shell (`process.c`)

A shallow embedding of `process.c`.  One process is followed at a time: the
state below is the state of the process that is executing the code, and
`fork` tells (through the kernel's reply) whether execution continues in the
parent or in the child.

Every system call takes its answer from a script of kernel replies carried in
the state (`State.os`), so that every failure path of the C code can be
reached; the kernel-side data the code depends on (current directory,
descriptor table, file contents, environment, `errno`) is explicit.
-/

namespace Shell

/-! ## The command tree -/

/-- Modelled from the spec: the node kinds of the command tree (`process.h` is
not part of the sources; the names are the constants used in `process.c`). -/
inductive CmdType where
  | SIMPLE | PIPE | SEP_AND | SEP_OR | SEP_END | SEP_BG | SUBCMD
  deriving DecidableEq, Repr

/-- Modelled from the spec: the values of `fromType` / `toType`
(`process.h` is not part of the sources). -/
inductive RedType where
  | NONE | RED_IN | RED_IN_HERE | RED_OUT | RED_OUT_APP
  deriving DecidableEq, Repr

/-- Modelled from the spec: the scalar fields of a `CMD` node that `process.c`
reads (`process.h` is not part of the sources).  `argc` is the length of
`argv`; `locals` holds `locVar[i]`, `locVal[i]` for `i < nLocal`. -/
structure Fields where
  argv : List String := []
  locals : List (String × String) := []
  fromType : RedType := RedType.NONE
  fromFile : String := ""
  toType : RedType := RedType.NONE
  toFile : String := ""
  deriving DecidableEq, Repr

/-- Modelled from the spec: a `const CMD *` (`process.h` is not part of the
sources): either the `NULL` pointer or a node with its kind, its fields and
its `left` and `right` pointers. -/
inductive CMD where
  | null : CMD
  | node (type : CmdType) (f : Fields) (left right : CMD) : CMD
  deriving DecidableEq, Repr

/-- Number of nodes of a tree. -/
def CMD.size : CMD → Nat
  | CMD.null => 0
  | CMD.node _ _ l r => l.size + r.size + 1

/-- The argument count of a node. -/
def Fields.argc (f : Fields) : Int := f.argv.length

/-! ## Kernel replies, descriptors, process state -/

/-- One answer of the kernel to a system call: `err = 0` lets the call succeed
and `err = e > 0` makes it fail with `errno = e`; `val` is the value a
successful call yields where the kernel chooses one (the pid returned by
`fork` or `waitpid`, the suffix chosen by `mkstemp`), `status` the wait status
stored by `waitpid`. -/
structure Reply where
  err : Nat := 0
  val : Nat := 0
  status : Int := 0
  deriving DecidableEq, Repr

/-- Flags of `open` used by the code. -/
structure OFlags where
  rdwr : Bool := false
  creat : Bool := false
  trunc : Bool := false
  append : Bool := false
  deriving DecidableEq, Repr

/-- The system and library calls that are answered by the kernel script. -/
inductive Call where
  | fork
  | waitany
  | waitpid (pid : Int)
  | signal (ignore : Bool)
  | fprintf (text : String)
  | printf (text : String)
  | perror (msg : String)
  | pipe
  | execvp (argv : List String)
  | open_ (path : String) (fl : OFlags)
  | mkstemp
  | write (fd : Nat) (data : List Char)
  | chdir (path : Option String)
  | getcwd
  | get_current_dir_name
  deriving DecidableEq, Repr

/-- What a descriptor is open on. -/
inductive Obj where
  | file (name : String)
  | pipeRead (n : Nat)
  | pipeWrite (n : Nat)
  | other
  deriving DecidableEq, Repr

/-- An open file description; `id` is its identity (two descriptors obtained
from one another by `dup2` share it). -/
structure OpenFile where
  id : Nat
  obj : Obj
  readable : Bool
  writable : Bool
  append : Bool
  offset : Nat
  deriving DecidableEq, Repr

/-- The state of the process that executes the code. -/
structure State where
  /-- current working directory -/
  cwd : String := "/"
  /-- the global linked list `head` of `pushd` / `popd`, top first -/
  head : List String := []
  /-- the environment -/
  env : List (String × String) := []
  /-- the variable `errno` -/
  errno : Int := 0
  /-- descriptor table: entry `n` is what descriptor `n` refers to -/
  fds : List (Option OpenFile) := []
  /-- identity given to the next open file description -/
  nextId : Nat := 0
  /-- contents of the regular files -/
  files : List (String × List Char) := []
  /-- the replies of the kernel to the coming calls -/
  os : List Reply := []
  /-- the values found in automatic variables that are read before being
  assigned -/
  junk : List Int := []
  /-- the calls made so far, with the reply each one got -/
  trace : List (Call × Reply) := []
  deriving DecidableEq, Repr

/-- How a C function of the shell ends in the process that is followed: it
returns a value, the process calls `exit`, the process image is replaced by
`execvp`, or the process makes a memory fault (it dereferences a `NULL`
pointer or writes past the end of an array). -/
inductive Res (α : Type) where
  | ret (v : α) (s : State) : Res α
  | exited (code : Int) (s : State) : Res α
  | execd (argv : List String) (s : State) : Res α
  | fault (s : State) : Res α
  deriving DecidableEq, Repr

/-- Sequencing: the continuation runs only when the first part returns. -/
def Res.bind {α β : Type} (r : Res α) (k : α → State → Res β) : Res β :=
  match r with
  | Res.ret v s => k v s
  | Res.exited c s => Res.exited c s
  | Res.execd a s => Res.execd a s
  | Res.fault s => Res.fault s

/-- The state in which a function ended. -/
def Res.state {α : Type} : Res α → State
  | Res.ret _ s => s
  | Res.exited _ s => s
  | Res.execd _ s => s
  | Res.fault s => s

/-! ## System calls -/

def EBADF : Nat := 9
def EFAULT : Nat := 14
def EEXIST : Nat := 17
def ERANGE : Nat := 34

/-- Takes the next reply of the kernel (a successful default once the script
is used up) and records the call. -/
def sys (c : Call) (s : State) : Reply × State :=
  match s.os with
  | [] => ({}, { s with trace := s.trace ++ [(c, {})] })
  | r :: rest => (r, { s with os := rest, trace := s.trace ++ [(c, r)] })

/-- A failed call leaves its error number in `errno`. -/
def setErrno (e : Nat) (s : State) : State := { s with errno := e }

/-- The assignment `head = h`. -/
def setHead (h : List String) (s : State) : State := { s with head := h }

/-- The kernel changes the current directory of the process. -/
def setCwd (d : String) (s : State) : State := { s with cwd := d }

/-- Reading an automatic variable that was never assigned: the value is
whatever the stack holds. -/
def uninit (s : State) : Int × State :=
  (s.junk.headD 0, { s with junk := s.junk.tail })

/-- Reading a local that may not have been assigned. -/
def readLocal (v : Option Int) (s : State) : Int × State :=
  match v with
  | some x => (x, s)
  | none => uninit s

/-- The call `perror(msg)`: a line on standard error; `errno` is kept. -/
def perror (msg : String) (s : State) : State :=
  { s with trace := s.trace ++ [(Call.perror msg, {})] }

/-- The call `fork()`: `-1` on failure, `0` in the child, the pid of the child
in the parent. -/
def fork (s : State) : Int × State :=
  let rs := sys Call.fork s
  if rs.1.err ≠ 0 then (-1, setErrno rs.1.err rs.2) else (rs.1.val, rs.2)

/-- The call `waitpid(-1, &status, WNOHANG)`: the pid of a reaped child and its
status, `0` when no child has ended, `-1` when there is none (the code reads
the status only after a positive pid). -/
def waitany (s : State) : (Int × Int) × State :=
  let rs := sys Call.waitany s
  if rs.1.err ≠ 0 then ((-1, rs.1.status), setErrno rs.1.err rs.2)
  else ((rs.1.val, rs.1.status), rs.2)

/-- The call `waitpid(pid, &status, 0)`; the code ignores its return value and
reads `status`, which a failed call leaves unassigned. -/
def waitpid (pid : Int) (s : State) : Int × State :=
  let rs := sys (Call.waitpid pid) s
  if rs.1.err ≠ 0 then uninit (setErrno rs.1.err rs.2) else (rs.1.status, rs.2)

/-- The call `signal(SIGINT, SIG_IGN)` or `signal(SIGINT, SIG_DFL)`: `true`
when it returns `SIG_ERR`. -/
def signal (ignore : Bool) (s : State) : Bool × State :=
  let rs := sys (Call.signal ignore) s
  if rs.1.err ≠ 0 then (true, setErrno rs.1.err rs.2) else (false, rs.2)

/-- The call `fprintf(stderr, ...)`: negative on failure. -/
def fprintf (text : String) (s : State) : Int × State :=
  let rs := sys (Call.fprintf text) s
  if rs.1.err ≠ 0 then (-1, setErrno rs.1.err rs.2) else (text.length, rs.2)

/-- The call `printf(...)`: negative on failure. -/
def printf (text : String) (s : State) : Int × State :=
  let rs := sys (Call.printf text) s
  if rs.1.err ≠ 0 then (-1, setErrno rs.1.err rs.2) else (text.length, rs.2)

/-- The call `chdir(path)`; `none` is the `NULL` pointer.  Directories are
named by their canonical absolute path, so that after a successful call the
current directory is `path`. -/
def chdir (path : Option String) (s : State) : Int × State :=
  let rs := sys (Call.chdir path) s
  match path with
  | none => (-1, setErrno EFAULT rs.2)
  | some p =>
    if rs.1.err ≠ 0 then (-1, setErrno rs.1.err rs.2) else (0, setCwd p rs.2)

/-- The call `getcwd(buf, 256)`: `none` is the `NULL` result. -/
def getcwd (s : State) : Option String × State :=
  let rs := sys Call.getcwd s
  if rs.1.err ≠ 0 then (none, setErrno rs.1.err rs.2)
  else if 256 < rs.2.cwd.utf8ByteSize + 1 then (none, setErrno ERANGE rs.2)
  else (some rs.2.cwd, rs.2)

/-- The call `get_current_dir_name()`: `none` is the `NULL` result. -/
def get_current_dir_name (s : State) : Option String × State :=
  let rs := sys Call.get_current_dir_name s
  if rs.1.err ≠ 0 then (none, setErrno rs.1.err rs.2) else (some rs.2.cwd, rs.2)

/-- The call `setenv(name, value, 1)`. -/
def setenv (name value : String) (s : State) : State :=
  { s with env := (name, value) :: s.env.filter (fun p => p.1 ≠ name) }

/-- The call `getenv(name)`; `none` is the `NULL` result. -/
def getenv (name : String) (s : State) : Option String :=
  s.env.lookup name

/-! ### Descriptors and files -/

/-- What descriptor `n` refers to. -/
def getFd : List (Option OpenFile) → Nat → Option OpenFile
  | [], _ => none
  | e :: _, 0 => e
  | _ :: t, n + 1 => getFd t n

/-- Makes descriptor `n` refer to `e`. -/
def setFd : List (Option OpenFile) → Nat → Option OpenFile → List (Option OpenFile)
  | [], 0, e => [e]
  | [], n + 1, e => none :: setFd [] n e
  | _ :: t, 0, e => e :: t
  | x :: t, n + 1, e => x :: setFd t n e

/-- The lowest descriptor that is not open: the one the next `open`, `pipe`
or `mkstemp` returns. -/
def lowestFree : List (Option OpenFile) → Nat
  | [] => 0
  | none :: _ => 0
  | some _ :: t => lowestFree t + 1

/-- The bytes of a regular file (none for a file that does not exist). -/
def fileContent (s : State) (name : String) : List Char :=
  (s.files.lookup name).getD []

/-- Replaces the bytes of a regular file. -/
def setContent (name : String) (data : List Char) (s : State) : State :=
  { s with files := (name, data) :: s.files.filter (fun p => p.1 ≠ name) }

/-- Installs a new open file description on the lowest free descriptor. -/
def install (o : Obj) (r w a : Bool) (s : State) : Nat × State :=
  (lowestFree s.fds,
   { s with fds := setFd s.fds (lowestFree s.fds)
                    (some { id := s.nextId, obj := o, readable := r, writable := w,
                            append := a, offset := 0 }),
            nextId := s.nextId + 1 })

/-- The call `open(path, flags, mode)`: `-1` on failure, else the new
descriptor. -/
def open_ (path : String) (fl : OFlags) (s : State) : Int × State :=
  let rs := sys (Call.open_ path fl) s
  if rs.1.err ≠ 0 then (-1, setErrno rs.1.err rs.2)
  else
    let s1 := if fl.trunc ∨ (fl.creat ∧ rs.2.files.lookup path = none)
              then setContent path [] rs.2
              else rs.2
    let ns := install (Obj.file path) true fl.rdwr fl.append s1
    (ns.1, ns.2)

/-- The name `mkstemp` makes from the template `tmp_XXXXXX`. -/
def tmpName (n : Nat) : String := "tmp_" ++ toString n

/-- The call `mkstemp(tmp)`: creates a file that did not exist and opens it for
reading and writing; yields the descriptor (`-1` on failure) and the name
written back into `tmp`. -/
def mkstemp (s : State) : (Int × String) × State :=
  let rs := sys Call.mkstemp s
  if rs.1.err ≠ 0 then ((-1, "tmp_XXXXXX"), setErrno rs.1.err rs.2)
  else if (rs.2.files.lookup (tmpName rs.1.val)).isSome then
    ((-1, "tmp_XXXXXX"), setErrno EEXIST rs.2)
  else
    let ns := install (Obj.file (tmpName rs.1.val)) true true false
                (setContent (tmpName rs.1.val) [] rs.2)
    ((ns.1, tmpName rs.1.val), ns.2)

/-- Advances the offset of every descriptor of the description `id`. -/
def advance (id n : Nat) (fds : List (Option OpenFile)) : List (Option OpenFile) :=
  fds.map fun e =>
    match e with
    | some of => if of.id = id then some { of with offset := of.offset + n } else some of
    | none => none

/-- The call `write(fd, data, strlen(data))`: the number of bytes written, `-1`
on failure.  A successful call writes all the bytes. -/
def write (fd : Int) (data : List Char) (s : State) : Int × State :=
  let rs := sys (Call.write fd.toNat data) s
  if rs.1.err ≠ 0 then (-1, setErrno rs.1.err rs.2)
  else
    match getFd rs.2.fds fd.toNat with
    | some of =>
      match of.obj with
      | Obj.file name =>
        if of.writable ∧ 0 ≤ fd then
          let old := fileContent rs.2 name
          let at_ := if of.append then old.length else of.offset
          let s1 := setContent name (old.take at_ ++ data ++ old.drop (at_ + data.length)) rs.2
          (data.length, { s1 with fds := advance of.id (at_ + data.length - of.offset) s1.fds })
        else (-1, setErrno EBADF rs.2)
      | _ => if of.writable ∧ 0 ≤ fd then (data.length, rs.2) else (-1, setErrno EBADF rs.2)
    | none => (-1, setErrno EBADF rs.2)

/-- The call `close(fd)`; its result is never looked at. -/
def close (fd : Int) (s : State) : State :=
  if fd < 0 then setErrno EBADF s
  else
    match getFd s.fds fd.toNat with
    | some _ => { s with fds := setFd s.fds fd.toNat none }
    | none => setErrno EBADF s

/-- The call `dup2(oldfd, newfd)`; its result is never looked at. -/
def dup2 (oldfd : Int) (newfd : Nat) (s : State) : State :=
  if oldfd < 0 then setErrno EBADF s
  else
    match getFd s.fds oldfd.toNat with
    | some of => if oldfd.toNat = newfd then s else { s with fds := setFd s.fds newfd (some of) }
    | none => setErrno EBADF s

/-- The call `pipe(pipefd)`: `-1` on failure (the code does not read `pipefd`
then); else the read end and the write end on the two lowest free
descriptors. -/
def pipe (s : State) : (Int × Int × Int) × State :=
  let rs := sys Call.pipe s
  if rs.1.err ≠ 0 then ((-1, 0, 0), setErrno rs.1.err rs.2)
  else
    let r := install (Obj.pipeRead rs.2.nextId) true false false rs.2
    let w := install (Obj.pipeWrite rs.2.nextId) false true false r.2
    ((0, r.1, w.1), w.2)

/-- What a `read` of everything left on descriptor `fd` yields. -/
def readAll (s : State) (fd : Nat) : Option (List Char) :=
  match getFd s.fds fd with
  | some of =>
    match of.obj with
    | Obj.file name => if of.readable then some ((fileContent s name).drop of.offset) else none
    | _ => none
  | none => none

/-- Modelled from the spec: the macro `STATUS` of the missing `process.h`, which
turns a wait status into the low byte of the exit code after a normal exit and
into `128 + signal` otherwise. -/
def STATUS (x : Int) : Int :=
  if x % 128 = 0 then (x / 256) % 256 else 128 + x % 128

def O_RDONLY : OFlags := {}
def O_RDWR_CREAT_TRUNC : OFlags := { rdwr := true, creat := true, trunc := true }
def O_RDWR_CREAT_APPEND : OFlags := { rdwr := true, creat := true, append := true }

/-! ## Redirections -/

/-- Runs a call and goes on with its result and the state it leaves. -/
def call {α β : Type} (x : α × State) (k : α → State → β) : β :=
  k x.1 x.2

/-- The function `redirect_stdin` (`<` and `<<`), run in a forked child: a
failure ends the child with `exit(errno)`. -/
def redirect_stdin : CMD → State → Res Unit
  | CMD.null, s => Res.fault s
  | CMD.node _ f _ _, s =>
    match f.fromType with
    | RedType.RED_IN =>
      call (open_ f.fromFile O_RDONLY s) fun new_stdin_fd s =>
      if new_stdin_fd < 0 then Res.exited s.errno (perror "Open error" s)
      else Res.ret () (close new_stdin_fd (dup2 new_stdin_fd 0 s))
    | RedType.RED_IN_HERE =>
      call (mkstemp s) fun m s =>
      -- m.1 is new_stdin_fd, m.2 the name left in tmp
      if m.1 < 0 then Res.exited s.errno (perror "Mkstemp() error" s)
      else
        call (write m.1 f.fromFile.data s) fun w s =>
        if w < 0 then Res.exited s.errno (perror "Write error" s)
        else
          call (open_ m.2 O_RDONLY (close m.1 s)) fun o s =>
          if o < 0 then Res.exited s.errno (perror "Open error" s)
          else Res.ret () (close m.1 (dup2 m.1 0 s))
    | _ => Res.ret () s

/-- The function `redirect_stdout` (`>` and `>>`), run in a forked child. -/
def redirect_stdout : CMD → State → Res Unit
  | CMD.null, s => Res.fault s
  | CMD.node _ f _ _, s =>
    match f.toType with
    | RedType.RED_OUT =>
      call (open_ f.toFile O_RDWR_CREAT_TRUNC s) fun new_stdout_fd s =>
      if new_stdout_fd < 0 then Res.exited s.errno (perror "Open error" s)
      else Res.ret () (close new_stdout_fd (dup2 new_stdout_fd 1 s))
    | RedType.RED_OUT_APP =>
      call (open_ f.toFile O_RDWR_CREAT_APPEND s) fun new_stdout_fd s =>
      if new_stdout_fd < 0 then Res.exited s.errno (perror "Open error" s)
      else Res.ret () (close new_stdout_fd (dup2 new_stdout_fd 1 s))
    | _ => Res.ret () s

/-- The function `redirect_stdin_builtin`: as `redirect_stdin`, but a failure
returns `errno` to the caller. -/
def redirect_stdin_builtin : CMD → State → Res Int
  | CMD.null, s => Res.fault s
  | CMD.node _ f _ _, s =>
    match f.fromType with
    | RedType.RED_IN =>
      call (open_ f.fromFile O_RDONLY s) fun new_stdin_fd s =>
      if new_stdin_fd < 0 then Res.ret s.errno (perror "Open error" s)
      else Res.ret 0 (close new_stdin_fd (dup2 new_stdin_fd 0 s))
    | RedType.RED_IN_HERE =>
      call (mkstemp s) fun m s =>
      if m.1 < 0 then Res.ret s.errno (perror "Mkstemp() error" s)
      else
        call (write m.1 f.fromFile.data s) fun w s =>
        if w < 0 then Res.ret s.errno (perror "Write error" s)
        else
          call (open_ m.2 O_RDONLY (close m.1 s)) fun o s =>
          if o < 0 then Res.ret s.errno (perror "Open error" s)
          else Res.ret 0 (close m.1 (dup2 m.1 0 s))
    | _ => Res.ret 0 s

/-- The function `redirect_stdout_builtin`: as `redirect_stdout`, but a failure
returns `errno` to the caller. -/
def redirect_stdout_builtin : CMD → State → Res Int
  | CMD.null, s => Res.fault s
  | CMD.node _ f _ _, s =>
    match f.toType with
    | RedType.RED_OUT =>
      call (open_ f.toFile O_RDWR_CREAT_TRUNC s) fun new_stdout_fd s =>
      if new_stdout_fd < 0 then Res.ret s.errno (perror "Open error" s)
      else Res.ret 0 (close new_stdout_fd (dup2 new_stdout_fd 1 s))
    | RedType.RED_OUT_APP =>
      call (open_ f.toFile O_RDWR_CREAT_APPEND s) fun new_stdout_fd s =>
      if new_stdout_fd < 0 then Res.ret s.errno (perror "Open error" s)
      else Res.ret 0 (close new_stdout_fd (dup2 new_stdout_fd 1 s))
    | _ => Res.ret 0 s

/-! ## Built-ins -/

/-- The function `env_variable`: sets `$?` to the decimal of `status`.  The
decimal is written with `sprintf` into `char printed_value[10]`: one that has
ten characters or more overruns the array, which is a memory fault. -/
def env_variable (status : Int) (s : State) : Res Unit :=
  if (toString status).length < 10 then Res.ret () (setenv "?" (toString status) s)
  else Res.fault s

/-- The loop `for (i = 0; i < nLocal; i++) setenv(locVar[i], locVal[i], 1)`. -/
def setLocals : List (String × String) → State → State
  | [], s => s
  | (k, v) :: t, s => setLocals t (setenv k v s)

/-- The loops that print every directory of the stack, top first; `some e`
when a `printf` failed and the function around the loop returns `e`. -/
def printStack (fmt : String → String) : List String → State → Option Int × State
  | [], s => (none, s)
  | d :: t, s =>
    call (printf (fmt d) s) fun x s =>
    if x < 0 then (some s.errno, perror "printf() error" s)
    else printStack fmt t s

/-- The function `pushd_command`. -/
def pushd_command : CMD → State → Res Int
  | CMD.null, s => Res.fault s
  | CMD.node _ f _ _, s =>
    call (getcwd s) fun directory s =>
    match directory with
    | none => Res.ret s.errno (perror "getcwd() error" s)
    | some dir =>
      -- node->next = head; head = node;
      call (chdir (f.argv.get? 1) (setHead (dir :: s.head) s)) fun c s =>
      if c < 0 then Res.ret s.errno (perror "chdir() error" s)
      else
        call (get_current_dir_name s) fun current_directory s =>
        match current_directory with
        | none => Res.ret s.errno (perror "getcwd() error" s)
        | some cur =>
          call (printf cur s) fun p s =>
          if p < 0 then Res.ret s.errno (perror "printf() error" s)
          else
            call (printStack (fun x => " " ++ x) s.head s) fun failed s =>
            match failed with
            | some e => Res.ret e s
            | none =>
              call (printf "\n" s) fun y s =>
              if y < 0 then Res.ret s.errno (perror "printf() error" s)
              else Res.ret 0 s

/-- The function `popd_command`. -/
def popd_command (_cmdList : CMD) (s : State) : Res Int :=
  match s.head with
  | [] => Res.ret s.errno (perror "Stack empty" s)
  | top :: next =>
    call (printStack (fun x => x ++ " ") s.head s) fun failed s =>
    match failed with
    | some e => Res.ret e s
    | none =>
      call (printf "\n" s) fun y s =>
      if y < 0 then Res.ret s.errno (perror "printf() error" s)
      else
        -- popped_node = head; head = head->next;
        call (chdir (some top) (setHead next s)) fun c s =>
        if c < 0 then Res.ret s.errno (perror "chdir() error" s)
        else Res.ret 0 s

/-- The function `built_in_command` (`cd`, `pushd`, `popd`). -/
def built_in_command : CMD → State → Res Int
  | CMD.null, s => Res.fault s
  | CMD.node ty f l r, s =>
    (redirect_stdin_builtin (CMD.node ty f l r) (setLocals f.locals s)).bind fun x s =>
    if x ≠ 0 then Res.ret s.errno s
    else
      (redirect_stdout_builtin (CMD.node ty f l r) s).bind fun y s =>
      if y < 0 then Res.ret s.errno s
      else
        match f.argv with
        | [] => Res.fault s
        | command :: _ =>
          let type1 : Int := if command = "cd" then 1 else 0
          let type2 : Int := if command = "pushd" then 2 else type1
          let type : Int := if command = "popd" then 3 else type2
          if type = 1 then
            if f.argc > 2 then Res.ret 1 (perror "Too many arguments" s)
            else if f.argc = 1 then
              call (chdir (getenv "HOME" s) s) fun c s =>
              if c < 0 then Res.ret s.errno (perror "chdir() error" s)
              else Res.ret 0 s
            else if f.argc = 2 then
              call (chdir (f.argv.get? 1) s) fun c s =>
              if c < 0 then Res.ret s.errno (perror "chdir() error" s)
              else Res.ret 0 s
            else Res.ret 0 s
          else if type = 2 then
            if f.argc ≠ 2 then Res.ret 1 (perror "pushd arguments" s)
            else pushd_command (CMD.node ty f l r) s
          else if type = 3 then
            if f.argc > 1 then Res.ret 1 (perror "Too many arguments" s)
            else if f.argc = 1 then popd_command (CMD.node ty f l r) s
            else Res.ret 0 s
          else Res.ret 0 s

/-! ## The evaluator -/

/-- The reaping loop at the head of `process`: `some e` when a `fprintf` failed
and `process` returns `e` at once.  The first argument bounds the number of
turns; `reap` gives it a value the loop cannot use up, since every turn that
goes on takes a reply from the script. -/
def reapLoop : Nat → State → Res (Option Int)
  | 0, s => Res.ret none s
  | n + 1, s =>
    call (waitany s) fun w s =>
    -- w.1 is pid, w.2 is status
    if w.1 > 0 then
      call (fprintf ("Completed: " ++ toString w.1 ++ " (" ++ toString w.2 ++ ")\n") s) fun f s =>
      if f < 0 then
        (env_variable f (perror "fprintf() error" s)).bind fun _ s1 => Res.ret (some s.errno) s1
      else reapLoop n s
    else Res.ret none s

/-- The loop `while (pid > 0)` that reaps zombies. -/
def reap (s : State) : Res (Option Int) :=
  reapLoop (s.os.length + 1) s

/-- The function `simple_command`. -/
def simple_command (cmdList : CMD) (s : State) : Res Int :=
  call (fork s) fun pid s =>
  if pid < 0 then Res.ret s.errno (perror "Fork failure" s)
  else if pid = 0 then
    match cmdList with
    | CMD.null => Res.fault s
    | CMD.node ty f l r =>
      (redirect_stdin (CMD.node ty f l r) (setLocals f.locals s)).bind fun _ s =>
      (redirect_stdout (CMD.node ty f l r) s).bind fun _ s =>
      call (sys (Call.execvp f.argv) s) fun x s =>
      if x.err ≠ 0 then Res.exited x.err (perror "execvp() error" (setErrno x.err s))
      else Res.execd f.argv s
  else
    call (signal true s) fun failed s =>
    if failed then Res.ret s.errno (perror "signal() error" s)
    else
      call (waitpid pid s) fun child_status s =>
      call (signal false s) fun failed s =>
      if failed then Res.ret s.errno (perror "signal() error" s)
      else Res.ret (STATUS child_status) s

mutual

/-- The function `process`. -/
def process : CMD → State → Res Int
  | CMD.null, s =>
    (reap s).bind fun failed s =>
    match failed with
    | some e => Res.ret e s
    | none => Res.ret 0 s
  | CMD.node ty f l r, s =>
    (reap s).bind fun failed s =>
    match failed with
    | some e => Res.ret e s
    | none =>
      (match ty with
       | CmdType.SIMPLE =>
         match f.argv with
         | [] => Res.fault s
         | a :: _ =>
           if a = "cd" ∨ a = "pushd" ∨ a = "popd" then
             built_in_command (CMD.node ty f l r) s
           else simple_command (CMD.node ty f l r) s
       | CmdType.PIPE => pipe_command (CMD.node ty f l r) s
       | CmdType.SEP_AND => and_command (CMD.node ty f l r) s
       | CmdType.SEP_OR => or_command (CMD.node ty f l r) s
       | CmdType.SUBCMD => sub_command (CMD.node ty f l r) s
       | CmdType.SEP_END => end_command (CMD.node ty f l r) s
       | CmdType.SEP_BG => background_command (CMD.node ty f l r) s).bind
      fun ret_val s => (env_variable ret_val s).bind fun _ s => Res.ret ret_val s
termination_by c _ => 3 * c.size + 1
decreasing_by all_goals simp_wf

/-- The function `pipe_command`; `p` holds the result of `pipe` and then
`pipefd[0]`, `pipefd[1]`.  Only the two children read `cmdList`: with a `NULL`
argument they are the ones that fault. -/
def pipe_command : CMD → State → Res Int
  | CMD.null, s =>
    call (pipe s) fun p s =>
    if p.1 < 0 then Res.ret s.errno (perror "Pipe failure" s)
    else
      call (fork s) fun pid_left_child s =>
      if pid_left_child < 0 then Res.ret s.errno (perror "Fork failure" s)
      else if pid_left_child = 0 then
        Res.fault (close p.2.2 (dup2 p.2.2 1 (close p.2.1 s)))
      else
        call (fork s) fun pid_right_child s =>
        if pid_right_child < 0 then Res.ret s.errno (perror "Fork failure" s)
        else if pid_right_child = 0 then
          Res.fault (close p.2.1 (dup2 p.2.1 0 (close p.2.2 s)))
        else
          call (signal true (close p.2.2 (close p.2.1 s))) fun failed s =>
          if failed then Res.ret s.errno (perror "signal() error" s)
          else
            call (waitpid pid_left_child s) fun left_child_status s =>
            call (waitpid pid_right_child s) fun right_child_status s =>
            call (signal false s) fun failed s =>
            if failed then Res.ret s.errno (perror "signal() error" s)
            else
              if STATUS left_child_status = 0 ∧ STATUS right_child_status = 0 then
                Res.ret 0 s
              else if STATUS left_child_status = 0 ∧ STATUS right_child_status ≠ 0 then
                Res.ret (STATUS right_child_status) s
              else if STATUS left_child_status ≠ 0 ∧ STATUS right_child_status = 0 then
                Res.ret (STATUS left_child_status) s
              else if STATUS left_child_status ≠ 0 ∧ STATUS right_child_status ≠ 0 then
                Res.ret (STATUS right_child_status) s
              else Res.ret 0 s
  | CMD.node _ _ left right, s =>
    call (pipe s) fun p s =>
    if p.1 < 0 then Res.ret s.errno (perror "Pipe failure" s)
    else
      call (fork s) fun pid_left_child s =>
      if pid_left_child < 0 then Res.ret s.errno (perror "Fork failure" s)
      else if pid_left_child = 0 then
        -- the left child
        (process left (close p.2.2 (dup2 p.2.2 1 (close p.2.1 s)))).bind
          fun v s => Res.exited v s
      else
        call (fork s) fun pid_right_child s =>
        if pid_right_child < 0 then Res.ret s.errno (perror "Fork failure" s)
        else if pid_right_child = 0 then
          -- the right child
          (process right (close p.2.1 (dup2 p.2.1 0 (close p.2.2 s)))).bind
            fun v s => Res.exited v s
        else
          call (signal true (close p.2.2 (close p.2.1 s))) fun failed s =>
          if failed then Res.ret s.errno (perror "signal() error" s)
          else
            call (waitpid pid_left_child s) fun left_child_status s =>
            call (waitpid pid_right_child s) fun right_child_status s =>
            call (signal false s) fun failed s =>
            if failed then Res.ret s.errno (perror "signal() error" s)
            else
              if STATUS left_child_status = 0 ∧ STATUS right_child_status = 0 then
                Res.ret 0 s
              else if STATUS left_child_status = 0 ∧ STATUS right_child_status ≠ 0 then
                Res.ret (STATUS right_child_status) s
              else if STATUS left_child_status ≠ 0 ∧ STATUS right_child_status = 0 then
                Res.ret (STATUS left_child_status) s
              else if STATUS left_child_status ≠ 0 ∧ STATUS right_child_status ≠ 0 then
                Res.ret (STATUS right_child_status) s
              else Res.ret 0 s
termination_by c _ => 3 * c.size
decreasing_by all_goals (simp_wf; simp only [CMD.size]; omega)

/-- The function `and_command`. -/
def and_command : CMD → State → Res Int
  | CMD.null, s => Res.fault s
  | CMD.node _ _ left right, s =>
    (process left s).bind fun A s =>
    if A = 0 then
      (process right s).bind fun B s =>
      if B = 0 then Res.ret 0 s else Res.ret B s
    else Res.ret A s
termination_by c _ => 3 * c.size
decreasing_by all_goals (simp_wf; simp only [CMD.size]; omega)

/-- The function `or_command`. -/
def or_command : CMD → State → Res Int
  | CMD.null, s => Res.fault s
  | CMD.node _ _ left right, s =>
    (process left s).bind fun A s =>
    if A ≠ 0 then
      (process right s).bind fun B s =>
      if B ≠ 0 then Res.ret B s else Res.ret 0 s
    else Res.ret 0 s
termination_by c _ => 3 * c.size
decreasing_by all_goals (simp_wf; simp only [CMD.size]; omega)

/-- The function `sub_command`.  Only the child reads `cmdList`. -/
def sub_command : CMD → State → Res Int
  | CMD.null, s =>
    call (fork s) fun pid s =>
    if pid < 0 then Res.ret s.errno (perror "Fork failure" s)
    else if pid = 0 then Res.fault s
    else
      call (signal true s) fun failed s =>
      if failed then Res.ret s.errno (perror "signal() error" s)
      else
        call (waitpid pid s) fun child_status s =>
        call (signal false s) fun failed s =>
        if failed then Res.ret s.errno (perror "signal() error" s)
        else Res.ret (STATUS child_status) s
  | CMD.node ty f left r, s =>
    call (fork s) fun pid s =>
    if pid < 0 then Res.ret s.errno (perror "Fork failure" s)
    else if pid = 0 then
      (redirect_stdin (CMD.node ty f left r) (setLocals f.locals s)).bind fun _ s =>
      (redirect_stdout (CMD.node ty f left r) s).bind fun _ s =>
      (process left s).bind fun v s => Res.exited v s
    else
      call (signal true s) fun failed s =>
      if failed then Res.ret s.errno (perror "signal() error" s)
      else
        call (waitpid pid s) fun child_status s =>
        call (signal false s) fun failed s =>
        if failed then Res.ret s.errno (perror "signal() error" s)
        else Res.ret (STATUS child_status) s
termination_by c _ => 3 * c.size
decreasing_by all_goals (simp_wf; simp only [CMD.size]; omega)

/-- The function `end_command`. -/
def end_command : CMD → State → Res Int
  | CMD.null, s => Res.fault s
  | CMD.node _ _ left right, s =>
    (process left s).bind fun ret_val s =>
    if right ≠ CMD.null then process right s else Res.ret ret_val s
termination_by c _ => 3 * c.size
decreasing_by all_goals (simp_wf; simp only [CMD.size]; omega)

/-- The function `background_command`.  The locals `left_status`,
`left_right_status` and `right_status` are `none` until they are assigned. -/
def background_command : CMD → State → Res Int
  | CMD.null, s => Res.fault s
  | CMD.node _ _ CMD.null _, s => Res.fault s
  | CMD.node _ _ (CMD.node ltype lf ll lr) right, s =>
    -- if (cmdList->left->type == SEP_BG)
    (if ltype = CmdType.SEP_BG then
      (background_command_helper ll s).bind fun left_left_status s =>
      (if lr ≠ CMD.null then
        (background_command_helper lr s).bind fun v s => Res.ret (some v) s
       else Res.ret none s).bind fun left_right_status s =>
      if left_left_status ≠ 0 then Res.ret (some left_left_status, left_right_status) s
      else
        call (readLocal left_right_status s) fun v s =>
        Res.ret (some v, left_right_status) s
     else Res.ret (none, none) s).bind fun (locals : Option Int × Option Int) s =>
    -- if (cmdList->left->type == SEP_END) ... else ...
    (if ltype = CmdType.SEP_END then
      (process ll s).bind fun left_left_status s =>
      (if lr ≠ CMD.null then
        (background_command_helper lr s).bind fun v s => Res.ret (some v) s
       else Res.ret locals.2 s).bind fun left_right_status s =>
      if left_left_status ≠ 0 then Res.ret left_left_status s
      else call (readLocal left_right_status s) fun v s => Res.ret v s
     else background_command_helper (CMD.node ltype lf ll lr) s).bind fun left_status s =>
    -- if (cmdList->right != NULL)
    (if right ≠ CMD.null then
      (process right s).bind fun v s => Res.ret (some v) s
     else Res.ret none s).bind fun right_status_var s =>
    call (readLocal right_status_var s) fun right_status s =>
    if left_status = 0 ∧ right_status = 0 then Res.ret 0 s
    else if left_status ≠ 0 ∧ right_status = 0 then Res.ret left_status s
    else if left_status = 0 ∧ right_status ≠ 0 then Res.ret right_status s
    else if left_status ≠ 0 ∧ right_status ≠ 0 then Res.ret left_status s
    else Res.ret 0 s
termination_by c _ => 3 * c.size
decreasing_by all_goals (simp_wf; simp only [CMD.size]; omega)

/-- The function `background_command_helper`. -/
def background_command_helper : CMD → State → Res Int
  | CMD.null, s => Res.fault s
  | CMD.node ty f left right, s =>
    if ty = CmdType.SEP_BG then
      (background_command left s).bind fun left_status s =>
      (if right ≠ CMD.null then
        (background_command right s).bind fun v s => Res.ret (some v) s
       else Res.ret none s).bind fun right_status s =>
      if left_status ≠ 0 then Res.ret left_status s
      else call (readLocal right_status s) fun v s => Res.ret v s
    else if ty = CmdType.SEP_END then
      (process left s).bind fun left_status s =>
      (if right ≠ CMD.null then
        (background_command_helper right s).bind fun v s => Res.ret (some v) s
       else Res.ret none s).bind fun right_status s =>
      if left_status ≠ 0 then Res.ret left_status s
      else call (readLocal right_status s) fun v s => Res.ret v s
    else
      call (fork s) fun pid s =>
      if pid < 0 then
        (env_variable pid (perror "Fork failure" s)).bind fun _ s1 => Res.ret s.errno s1
      else if pid = 0 then
        (process (CMD.node ty f left right) s).bind fun v s => Res.exited v s
      else
        call (fprintf ("Backgrounded: " ++ toString pid ++ "\n") s) fun fp s =>
        if fp < 0 then
          (env_variable fp (perror "fprintf() failure" s)).bind fun _ s1 => Res.ret s.errno s1
        else Res.ret 0 s
termination_by c _ => 3 * c.size + 2
decreasing_by
  all_goals first
    | (simp_wf; done)
    | (simp_wf; simp only [CMD.size]; omega)

end

/-! ## Well-formed trees -/

/-- Modelled from the spec: the trees the evaluator is given (the parser that
builds them is not part of the sources).  A Simple node has a non-empty argv
and no children; Pipe, And and Or nodes have both children; Seq and Bg nodes
have a left child and may lack the right one; a Subshell node has its single
child on the left. -/
def wellFormed : CMD → Bool
  | CMD.null => false
  | CMD.node CmdType.SIMPLE f l r =>
    !f.argv.isEmpty && decide (l = CMD.null) && decide (r = CMD.null)
  | CMD.node CmdType.PIPE _ l r => wellFormed l && wellFormed r
  | CMD.node CmdType.SEP_AND _ l r => wellFormed l && wellFormed r
  | CMD.node CmdType.SEP_OR _ l r => wellFormed l && wellFormed r
  | CMD.node CmdType.SEP_END _ l r => wellFormed l && (decide (r = CMD.null) || wellFormed r)
  | CMD.node CmdType.SEP_BG _ l r => wellFormed l && (decide (r = CMD.null) || wellFormed r)
  | CMD.node CmdType.SUBCMD _ l r => wellFormed l && decide (r = CMD.null)

/-! ## Inputs used as examples -/

def pushdTmp : CMD := CMD.node CmdType.SIMPLE { argv := ["pushd", "/tmp"] } CMD.null CMD.null
def popdNode : CMD := CMD.node CmdType.SIMPLE { argv := ["popd"] } CMD.null CMD.null
def home : State := { cwd := "/home/u", head := ["/var"] }

def hereCat : CMD :=
  CMD.node CmdType.SIMPLE { argv := ["cat"], fromType := RedType.RED_IN_HERE,
                            fromFile := "alpha\nbeta\n" } CMD.null CMD.null
def tty : OpenFile :=
  { id := 0, obj := Obj.other, readable := true, writable := true, append := false, offset := 0 }
def console : State :=
  { cwd := "/home/u", fds := [some tty, some tty, some tty], nextId := 1,
    os := [{ val := 42 }, {}, {}] }

def prev7 : State := { cwd := "/home/u", env := [("?", "7")] }
def cdTmp : CMD := CMD.node CmdType.SIMPLE { argv := ["cd", "/tmp"] } CMD.null CMD.null
def failedWrite : State := { cwd := "/home/u", os := [{ val := 5 }, { err := 9 }] }

def sleepNode : CMD := CMD.node CmdType.SIMPLE { argv := ["sleep", "1"] } CMD.null CMD.null
def bgSleep : CMD := CMD.node CmdType.SEP_BG {} sleepNode CMD.null
/-- The shell in `/home/u`, about to get pid `100` from `fork`, with `7` in
the stack slot of the next unassigned local. -/
def parentJunk7 : State := { cwd := "/home/u", os := [{ val := 100 }], junk := [7] }
def freshShell : State := { cwd := "/home/u" }
def cdTmpOut : CMD :=
  CMD.node CmdType.SIMPLE { argv := ["cd", "/tmp"], toType := RedType.RED_OUT,
                            toFile := "/nodir/out" } CMD.null CMD.null
def cdTmpIn : CMD :=
  CMD.node CmdType.SIMPLE { argv := ["cd", "/tmp"], fromType := RedType.RED_IN,
                            fromFile := "/nodir/in" } CMD.null CMD.null
/-- The shell in `/home/u` when the next call fails with `ENOENT`. -/
def openFails : State := { cwd := "/home/u", os := [{ err := 2 }] }

def bgCdTmp : CMD := CMD.node CmdType.SEP_BG {} cdTmp CMD.null
/-- The shell in `/home/u` with no child to reap, about to get pid `100` from
`fork`. -/
def parent100 : State := { cwd := "/home/u", os := [{}, { val := 100 }] }

def pipeNode : CMD := CMD.node CmdType.PIPE {} sleepNode sleepNode
/-- The shell about to create a pipe and two children, pids `10` and `11`, the
left one ending with exit code `1` (wait status `256`) and the right one with
exit code `0`. -/
def pipeParent : State :=
  { cwd := "/home/u", fds := [some tty, some tty, some tty], nextId := 1,
    os := [{}, { val := 10 }, { val := 11 }, {}, { status := 256 }, { status := 0 }, {}] }

def falseNode : CMD := CMD.node CmdType.SIMPLE { argv := ["false"] } CMD.null CMD.null
def trueNode : CMD := CMD.node CmdType.SIMPLE { argv := ["true"] } CMD.null CMD.null
def andFalseCd : CMD := CMD.node CmdType.SEP_AND {} falseNode cdTmp
def orTrueCd : CMD := CMD.node CmdType.SEP_OR {} trueNode cdTmp
/-- The shell in `/home/u` with no child to reap, about to run a command in a
child, pid `10`, that ends with exit code `1` (wait status `256`). -/
def childFails : State :=
  { cwd := "/home/u", os := [{}, { val := 10 }, {}, { status := 256 }, {}] }
/-- The same with a child that ends with exit code `0`. -/
def childSucceeds : State :=
  { cwd := "/home/u", os := [{}, { val := 10 }, {}, { status := 0 }, {}] }

/-- The shell with descriptor `0` closed. -/
def noStdin : State :=
  { cwd := "/home/u", fds := [none, some tty, some tty], nextId := 1,
    os := [{ val := 42 }, {}, {}] }
def catIn : CMD :=
  CMD.node CmdType.SIMPLE { argv := ["cat"], fromType := RedType.RED_IN,
                            fromFile := "notes" } CMD.null CMD.null

/-- The shell about to create a pipe, when the first `fork` then fails with
`EAGAIN`. -/
def leftForkFails : State :=
  { cwd := "/home/u", fds := [some tty, some tty, some tty], nextId := 1,
    os := [{}, { err := 11 }] }
/-- The same when the first `fork` yields pid `10` and the second one fails. -/
def rightForkFails : State :=
  { cwd := "/home/u", fds := [some tty, some tty, some tty], nextId := 1,
    os := [{}, { val := 10 }, { err := 11 }] }

def cdHome : CMD := CMD.node CmdType.SIMPLE { argv := ["cd"] } CMD.null CMD.null
def cdTwo : CMD := CMD.node CmdType.SIMPLE { argv := ["cd", "/tmp", "/var"] } CMD.null CMD.null
/-- The shell in `/srv` with `HOME=/home/u` and a directory on the stack. -/
def away : State := { cwd := "/srv", head := ["/var"], env := [("HOME", "/home/u")] }

def seqFalseCd : CMD := CMD.node CmdType.SEP_END {} falseNode cdTmp
def seqFalse : CMD := CMD.node CmdType.SEP_END {} falseNode CMD.null

def sleepTwo : CMD := CMD.node CmdType.SIMPLE { argv := ["sleep", "2"] } CMD.null CMD.null
def echoDone : CMD := CMD.node CmdType.SIMPLE { argv := ["echo", "done"] } CMD.null CMD.null
/-- The tree of `cd /tmp & echo done`. -/
def bgCdEcho : CMD := CMD.node CmdType.SEP_BG {} cdTmp echoDone
/-- The tree of `sleep 1 ; sleep 2 & echo done`. -/
def bgSeq : CMD :=
  CMD.node CmdType.SEP_BG {} (CMD.node CmdType.SEP_END {} sleepNode sleepTwo) echoDone
/-- The tree of `sleep 1 & sleep 2 & echo done`. -/
def bgBg : CMD :=
  CMD.node CmdType.SEP_BG {} (CMD.node CmdType.SEP_BG {} sleepNode sleepTwo) echoDone
/-- The tree of `sleep 2 & echo done`. -/
def bgLeaf : CMD := CMD.node CmdType.SEP_BG {} sleepTwo echoDone
/-- The shell with no child to reap, whose forks yield the pids `10`, `11` and
`12` and whose children exit with code `0`. -/
def parentSeq : State :=
  { cwd := "/home/u",
    os := [{}, {}, { val := 10 }, {}, { status := 0 }, {}, { val := 11 }, {}, {},
           { val := 12 }, {}, { status := 0 }, {}] }
/-- The shell with no child to reap, whose forks yield the pids `100` and
`101`. -/
def parentTwo : State :=
  { cwd := "/home/u", os := [{}, { val := 100 }, {}, { val := 101 }, {}] }
/-- The shell about to get pid `11` from `fork`. -/
def parent11 : State := { cwd := "/home/u", os := [{ val := 11 }, {}] }

/-! ## The script of replies -/

theorem sys_reply (c : Call) (s : State) (r : Reply) (rest : List Reply)
    (h : s.os = r :: rest) : (sys c s).1 = r ∧ (sys c s).2.os = rest := by
  unfold sys; rw [h]; exact ⟨rfl, rfl⟩

theorem sys_fst (c : Call) (s : State) : (sys c s).1 = s.os.headD {} := by
  unfold sys; split <;> simp [*]

theorem sys_trace (c : Call) (s : State) :
    (sys c s).2.trace = s.trace ++ [(c, s.os.headD {})] := by
  unfold sys; split <;> simp [*]

/-! ## Frame lemmas: what the calls leave alone -/

@[simp] theorem sys_cwd (c : Call) (s : State) : (sys c s).2.cwd = s.cwd := by
  unfold sys; split <;> rfl

@[simp] theorem sys_head (c : Call) (s : State) : (sys c s).2.head = s.head := by
  unfold sys; split <;> rfl

@[simp] theorem sys_fds (c : Call) (s : State) : (sys c s).2.fds = s.fds := by
  unfold sys; split <;> rfl

@[simp] theorem sys_files (c : Call) (s : State) : (sys c s).2.files = s.files := by
  unfold sys; split <;> rfl

@[simp] theorem sys_nextId (c : Call) (s : State) : (sys c s).2.nextId = s.nextId := by
  unfold sys; split <;> rfl

@[simp] theorem sys_env (c : Call) (s : State) : (sys c s).2.env = s.env := by
  unfold sys; split <;> rfl

@[simp] theorem sys_junk (c : Call) (s : State) : (sys c s).2.junk = s.junk := by
  unfold sys; split <;> rfl

@[simp] theorem sys_errno (c : Call) (s : State) : (sys c s).2.errno = s.errno := by
  unfold sys; split <;> rfl

@[simp] theorem perror_cwd (m : String) (s : State) : (perror m s).cwd = s.cwd := rfl

@[simp] theorem perror_head (m : String) (s : State) : (perror m s).head = s.head := rfl

@[simp] theorem perror_errno (m : String) (s : State) : (perror m s).errno = s.errno := rfl

@[simp] theorem setHead_cwd (h : List String) (s : State) : (setHead h s).cwd = s.cwd := rfl

@[simp] theorem setHead_head (h : List String) (s : State) : (setHead h s).head = h := rfl

@[simp] theorem setCwd_cwd (d : String) (s : State) : (setCwd d s).cwd = d := rfl

@[simp] theorem setCwd_head (d : String) (s : State) : (setCwd d s).head = s.head := rfl

@[simp] theorem setErrno_cwd (e : Nat) (s : State) : (setErrno e s).cwd = s.cwd := rfl

@[simp] theorem setErrno_head (e : Nat) (s : State) : (setErrno e s).head = s.head := rfl

@[simp] theorem setErrno_errno (e : Nat) (s : State) : (setErrno e s).errno = e := rfl

@[simp] theorem setenv_cwd (k v : String) (s : State) : (setenv k v s).cwd = s.cwd := rfl

@[simp] theorem setenv_head (k v : String) (s : State) : (setenv k v s).head = s.head := rfl

@[simp] theorem setContent_cwd (k : String) (v : List Char) (s : State) :
    (setContent k v s).cwd = s.cwd := rfl

@[simp] theorem setContent_head (k : String) (v : List Char) (s : State) :
    (setContent k v s).head = s.head := rfl

@[simp] theorem install_cwd (o : Obj) (r w a : Bool) (s : State) :
    (install o r w a s).2.cwd = s.cwd := rfl

@[simp] theorem install_head (o : Obj) (r w a : Bool) (s : State) :
    (install o r w a s).2.head = s.head := rfl

@[simp] theorem close_cwd (fd : Int) (s : State) : (close fd s).cwd = s.cwd := by
  unfold close; repeat (first | split | rfl)

@[simp] theorem close_head (fd : Int) (s : State) : (close fd s).head = s.head := by
  unfold close; repeat (first | split | rfl)

@[simp] theorem dup2_cwd (o : Int) (n : Nat) (s : State) : (dup2 o n s).cwd = s.cwd := by
  unfold dup2; repeat (first | split | rfl)

@[simp] theorem dup2_head (o : Int) (n : Nat) (s : State) : (dup2 o n s).head = s.head := by
  unfold dup2; repeat (first | split | rfl)

@[simp] theorem open_cwd (p : String) (fl : OFlags) (s : State) :
    (open_ p fl s).2.cwd = s.cwd := by
  unfold open_; simp only []; repeat (first | split | simp)

@[simp] theorem open_head (p : String) (fl : OFlags) (s : State) :
    (open_ p fl s).2.head = s.head := by
  unfold open_; simp only []; repeat (first | split | simp)

@[simp] theorem mkstemp_cwd (s : State) : (mkstemp s).2.cwd = s.cwd := by
  unfold mkstemp; simp only []; repeat (first | split | simp)

@[simp] theorem mkstemp_head (s : State) : (mkstemp s).2.head = s.head := by
  unfold mkstemp; simp only []; repeat (first | split | simp)

@[simp] theorem write_cwd (fd : Int) (d : List Char) (s : State) :
    (write fd d s).2.cwd = s.cwd := by
  unfold write; simp only []; repeat (first | split | simp)

@[simp] theorem write_head (fd : Int) (d : List Char) (s : State) :
    (write fd d s).2.head = s.head := by
  unfold write; simp only []; repeat (first | split | simp)

@[simp] theorem printf_cwd (t : String) (s : State) : (printf t s).2.cwd = s.cwd := by
  unfold printf; simp only []; split <;> simp

@[simp] theorem printf_head (t : String) (s : State) : (printf t s).2.head = s.head := by
  unfold printf; simp only []; split <;> simp

@[simp] theorem fprintf_cwd (t : String) (s : State) : (fprintf t s).2.cwd = s.cwd := by
  unfold fprintf; simp only []; split <;> simp

@[simp] theorem fprintf_head (t : String) (s : State) : (fprintf t s).2.head = s.head := by
  unfold fprintf; simp only []; split <;> simp

@[simp] theorem fork_cwd (s : State) : (fork s).2.cwd = s.cwd := by
  unfold fork; simp only []; split <;> simp

@[simp] theorem fork_head (s : State) : (fork s).2.head = s.head := by
  unfold fork; simp only []; split <;> simp

@[simp] theorem getcwd_cwd (s : State) : (getcwd s).2.cwd = s.cwd := by
  unfold getcwd; simp only []; repeat (first | split | simp)

@[simp] theorem getcwd_head (s : State) : (getcwd s).2.head = s.head := by
  unfold getcwd; simp only []; repeat (first | split | simp)

@[simp] theorem get_current_dir_name_cwd (s : State) :
    (get_current_dir_name s).2.cwd = s.cwd := by
  unfold get_current_dir_name; simp only []; split <;> simp

@[simp] theorem get_current_dir_name_head (s : State) :
    (get_current_dir_name s).2.head = s.head := by
  unfold get_current_dir_name; simp only []; split <;> simp

@[simp] theorem chdir_head (p : Option String) (s : State) : (chdir p s).2.head = s.head := by
  unfold chdir; simp only []; repeat (first | split | simp)

@[simp] theorem uninit_cwd (s : State) : (uninit s).2.cwd = s.cwd := rfl

@[simp] theorem uninit_head (s : State) : (uninit s).2.head = s.head := rfl

@[simp] theorem readLocal_cwd (v : Option Int) (s : State) : (readLocal v s).2.cwd = s.cwd := by
  cases v <;> rfl

@[simp] theorem readLocal_head (v : Option Int) (s : State) :
    (readLocal v s).2.head = s.head := by
  cases v <;> rfl

@[simp] theorem env_variable_cwd (v : Int) (s : State) :
    (env_variable v s).state.cwd = s.cwd := by
  unfold env_variable
  split <;> rfl

@[simp] theorem env_variable_head (v : Int) (s : State) :
    (env_variable v s).state.head = s.head := by
  unfold env_variable
  split <;> rfl

@[simp] theorem setLocals_cwd (l : List (String × String)) (s : State) :
    (setLocals l s).cwd = s.cwd := by
  induction l generalizing s with
  | nil => rfl
  | cons a t ih => obtain ⟨k, v⟩ := a; simp [setLocals, ih]

@[simp] theorem setLocals_head (l : List (String × String)) (s : State) :
    (setLocals l s).head = s.head := by
  induction l generalizing s with
  | nil => rfl
  | cons a t ih => obtain ⟨k, v⟩ := a; simp [setLocals, ih]

@[simp] theorem close_os (fd : Int) (s : State) : (close fd s).os = s.os := by
  unfold close; repeat (first | split | rfl)

@[simp] theorem install_os (o : Obj) (r w a : Bool) (s : State) :
    (install o r w a s).2.os = s.os := rfl

@[simp] theorem close_files (fd : Int) (s : State) : (close fd s).files = s.files := by
  unfold close; repeat (first | split | rfl)

@[simp] theorem close_nextId (fd : Int) (s : State) : (close fd s).nextId = s.nextId := by
  unfold close; repeat (first | split | rfl)

@[simp] theorem dup2_files (o : Int) (n : Nat) (s : State) : (dup2 o n s).files = s.files := by
  unfold dup2; repeat (first | split | rfl)

@[simp] theorem dup2_os (o : Int) (n : Nat) (s : State) : (dup2 o n s).os = s.os := by
  unfold dup2; repeat (first | split | rfl)

@[simp] theorem waitany_env (s : State) : (waitany s).2.env = s.env := by
  unfold waitany; simp only []; split <;> simp [setErrno]

@[simp] theorem fprintf_env (t : String) (s : State) : (fprintf t s).2.env = s.env := by
  unfold fprintf; simp only []; split <;> simp [setErrno]

@[simp] theorem fork_trace (s : State) :
    (fork s).2.trace = s.trace ++ [(Call.fork, s.os.headD {})] := by
  unfold fork; simp only []; split <;> simp [setErrno, sys_trace]

@[simp] theorem fprintf_trace (t : String) (s : State) :
    (fprintf t s).2.trace = s.trace ++ [(Call.fprintf t, s.os.headD {})] := by
  unfold fprintf; simp only []; split <;> simp [setErrno, sys_trace]

@[simp] theorem perror_trace (m : String) (s : State) :
    (perror m s).trace = s.trace ++ [(Call.perror m, ({} : Reply))] := rfl

@[simp] theorem env_variable_trace (v : Int) (s : State) :
    (env_variable v s).state.trace = s.trace := by
  unfold env_variable
  split <;> rfl

@[simp] theorem readLocal_trace (v : Option Int) (s : State) :
    (readLocal v s).2.trace = s.trace := by
  cases v <;> rfl

@[simp] theorem sys_os (c : Call) (s : State) : (sys c s).2.os = s.os.tail := by
  unfold sys; split <;> simp [*]

@[simp] theorem waitany_os (s : State) : (waitany s).2.os = s.os.tail := by
  unfold waitany; simp only []; split <;> simp [setErrno]

@[simp] theorem fprintf_os (t : String) (s : State) : (fprintf t s).2.os = s.os.tail := by
  unfold fprintf; simp only []; split <;> simp [setErrno]

@[simp] theorem sys_tlen (c : Call) (s : State) :
    (sys c s).2.trace.length = s.trace.length + 1 := by
  simp [sys_trace]

@[simp] theorem setErrno_trace (e : Nat) (s : State) : (setErrno e s).trace = s.trace := rfl

@[simp] theorem setHead_trace (h : List String) (s : State) : (setHead h s).trace = s.trace := rfl

@[simp] theorem setCwd_trace (d : String) (s : State) : (setCwd d s).trace = s.trace := rfl

@[simp] theorem setenv_trace (k v : String) (s : State) : (setenv k v s).trace = s.trace := rfl

@[simp] theorem setContent_trace (k : String) (v : List Char) (s : State) :
    (setContent k v s).trace = s.trace := rfl

@[simp] theorem install_trace (o : Obj) (r w a : Bool) (s : State) :
    (install o r w a s).2.trace = s.trace := rfl

@[simp] theorem uninit_trace (s : State) : (uninit s).2.trace = s.trace := rfl

@[simp] theorem close_trace (fd : Int) (s : State) : (close fd s).trace = s.trace := by
  unfold close; repeat (first | split | rfl)

@[simp] theorem dup2_trace (o : Int) (n : Nat) (s : State) : (dup2 o n s).trace = s.trace := by
  unfold dup2; repeat (first | split | rfl)

@[simp] theorem setLocals_trace (l : List (String × String)) (s : State) :
    (setLocals l s).trace = s.trace := by
  induction l generalizing s with
  | nil => rfl
  | cons a t ih => obtain ⟨k, v⟩ := a; simp [setLocals, ih]

@[simp] theorem waitany_tlen (s : State) :
    (waitany s).2.trace.length = s.trace.length + 1 := by
  unfold waitany; simp only []; split <;> simp

@[simp] theorem waitpid_tlen (p : Int) (s : State) :
    (waitpid p s).2.trace.length = s.trace.length + 1 := by
  unfold waitpid; simp only []; split <;> simp

@[simp] theorem signal_tlen (b : Bool) (s : State) :
    (signal b s).2.trace.length = s.trace.length + 1 := by
  unfold signal; simp only []; split <;> simp

@[simp] theorem printf_tlen (t : String) (s : State) :
    (printf t s).2.trace.length = s.trace.length + 1 := by
  unfold printf; simp only []; split <;> simp

@[simp] theorem chdir_tlen (p : Option String) (s : State) :
    (chdir p s).2.trace.length = s.trace.length + 1 := by
  unfold chdir; simp only []; repeat (first | split | simp)

@[simp] theorem getcwd_tlen (s : State) :
    (getcwd s).2.trace.length = s.trace.length + 1 := by
  unfold getcwd; simp only []; repeat (first | split | simp)

@[simp] theorem get_current_dir_name_tlen (s : State) :
    (get_current_dir_name s).2.trace.length = s.trace.length + 1 := by
  unfold get_current_dir_name; simp only []; split <;> simp

@[simp] theorem open_tlen (p : String) (fl : OFlags) (s : State) :
    (open_ p fl s).2.trace.length = s.trace.length + 1 := by
  unfold open_; simp only []; repeat (first | split | simp)

@[simp] theorem mkstemp_tlen (s : State) :
    (mkstemp s).2.trace.length = s.trace.length + 1 := by
  unfold mkstemp; simp only []; repeat (first | split | simp)

@[simp] theorem write_tlen (fd : Int) (d : List Char) (s : State) :
    (write fd d s).2.trace.length = s.trace.length + 1 := by
  unfold write; simp only []; repeat (first | split | simp)

@[simp] theorem pipe_tlen (s : State) :
    (pipe s).2.trace.length = s.trace.length + 1 := by
  unfold pipe; simp only []; split <;> simp

/-! ## What the calls answer -/

/-- The current directory after `chdir`: the argument when the call succeeds,
unchanged when it fails. -/
theorem chdir_cwd (p : Option String) (s : State) :
    ((chdir p s).1 < 0 → (chdir p s).2.cwd = s.cwd ∧ (chdir p s).2.errno ≠ 0) ∧
    (¬ (chdir p s).1 < 0 → p = some (chdir p s).2.cwd) := by
  unfold chdir
  cases p with
  | none => simp [EFAULT]
  | some q =>
    by_cases h : (sys (Call.chdir (some q)) s).1.err = 0
    · simp [h]
    · simp [h]

theorem printf_fail (t : String) (s : State) (h : (printf t s).1 < 0) :
    (printf t s).2.errno ≠ 0 := by
  unfold printf at h ⊢
  by_cases e : (sys (Call.printf t) s).1.err = 0
  · simp [e] at h; omega
  · simp [e]

theorem getcwd_some (s : State) (d : String) (h : (getcwd s).1 = some d) : d = s.cwd := by
  unfold getcwd at h
  simp only [] at h
  split at h
  · simp at h
  · split at h
    · simp at h
    · simpa using h.symm

theorem getcwd_none (s : State) (h : (getcwd s).1 = none) : (getcwd s).2.errno ≠ 0 := by
  unfold getcwd at h ⊢
  simp only [] at h ⊢
  split
  · rename_i e; simpa using e
  · split
    · simp [ERANGE]
    · rename_i e1 e2
      simp only [sys_cwd] at e2
      simp [e1, e2] at h

theorem get_current_dir_name_none (s : State) (h : (get_current_dir_name s).1 = none) :
    (get_current_dir_name s).2.errno ≠ 0 := by
  unfold get_current_dir_name at h ⊢
  by_cases e : (sys Call.get_current_dir_name s).1.err = 0
  · simp [e] at h
  · simp [e]

theorem printStack_spec (fmt : String → String) (l : List String) (s : State) :
    (printStack fmt l s).2.cwd = s.cwd ∧ (printStack fmt l s).2.head = s.head ∧
    ∀ e, (printStack fmt l s).1 = some e → e ≠ 0 := by
  induction l generalizing s with
  | nil => simp [printStack]
  | cons d t ih =>
    unfold printStack
    simp only [call]
    split
    · rename_i h
      simp only [perror_cwd, perror_head, printf_cwd, printf_head, true_and]
      intro e he
      have := printf_fail _ _ h
      simp only [Option.some.injEq] at he
      rw [← he]; exact this
    · obtain ⟨h1, h2, h3⟩ := ih (printf (fmt d) s).2
      simp only [printf_cwd, printf_head] at h1 h2
      exact ⟨h1, h2, h3⟩

/-- With the script starting with a successful reply `r`, `pipe` succeeds. -/
theorem pipe_ok (s : State) (r : Reply) (rest : List Reply) (h : s.os = r :: rest)
    (he : r.err = 0) : (pipe s).1.1 = 0 ∧ (pipe s).2.os = rest := by
  have hr := sys_reply Call.pipe s r rest h
  unfold pipe
  simp only [hr.1, he]
  simp [h]

theorem fork_ok (s : State) (r : Reply) (rest : List Reply) (h : s.os = r :: rest)
    (he : r.err = 0) : (fork s).1 = r.val ∧ (fork s).2.os = rest := by
  have hr := sys_reply Call.fork s r rest h
  unfold fork
  simp only [hr.1, he]
  simp [h]

theorem signal_ok (b : Bool) (s : State) (r : Reply) (rest : List Reply) (h : s.os = r :: rest)
    (he : r.err = 0) : (signal b s).1 = false ∧ (signal b s).2.os = rest := by
  have hr := sys_reply (Call.signal b) s r rest h
  unfold signal
  simp only [hr.1, he]
  simp [h]

theorem waitpid_ok (pid : Int) (s : State) (r : Reply) (rest : List Reply) (h : s.os = r :: rest)
    (he : r.err = 0) : (waitpid pid s).1 = r.status ∧ (waitpid pid s).2.os = rest := by
  have hr := sys_reply (Call.waitpid pid) s r rest h
  unfold waitpid
  simp only [hr.1, he]
  simp [h]

theorem waitany_pid_pos (s : State) (h : (waitany s).1.1 > 0) : s.os ≠ [] := by
  intro he
  unfold waitany at h
  simp [sys_fst, he] at h

/-! ## Sequencing -/

theorem ret_bind {α β : Type} (v : α) (s : State) (k : α → State → Res β) :
    (Res.ret v s).bind k = k v s := rfl

theorem Res.bind_ret_self (r : Res Int) :
    (r.bind fun v s => Res.ret v s) = r := by
  cases r <;> rfl

theorem bind_exited_bind (x : Res Int) (k : Int → State → Res Int) :
    ((x.bind fun v s => Res.exited v s).bind k) = x.bind fun v s => Res.exited v s := by
  cases x <;> rfl

theorem fork_neg (s : State) (h : (fork s).1 < 0) : (fork s).1 = -1 := by
  unfold fork at h ⊢
  simp only at h ⊢
  split
  · rfl
  · rename_i he
    rw [if_neg he] at h
    simp only at h
    omega

theorem fprintf_neg (t : String) (s : State) (h : (fprintf t s).1 < 0) :
    (fprintf t s).1 = -1 := by
  unfold fprintf at h ⊢
  simp only at h ⊢
  split
  · rfl
  · rename_i he
    rw [if_neg he] at h
    simp only at h
    omega

theorem env_variable_fits (v : Int) (s : State) (h : (toString v).length < 10) :
    env_variable v s = Res.ret () (setenv "?" (toString v) s) := by
  unfold env_variable
  rw [if_pos h]

theorem env_variable_minus_one (v : Int) (s : State) (h : v = -1) :
    env_variable v s = Res.ret () (setenv "?" "-1" s) := by
  subst h
  rfl

theorem getenv_env_variable (v : Int) (s s1 : State) (u : Unit)
    (h : env_variable v s = Res.ret u s1) :
    getenv "?" s1 = some (toString v) := by
  unfold env_variable at h
  split at h
  · simp only [Res.ret.injEq] at h
    rw [← h.2]
    simp [getenv, setenv, List.lookup]
  · simp at h

theorem bind_env_variable (d : Res Int) (v : Int) (s1 : State)
    (h : (d.bind fun ret_val s =>
      (env_variable ret_val s).bind fun _ s => Res.ret ret_val s) = Res.ret v s1) :
    getenv "?" s1 = some (toString v) := by
  cases d with
  | ret a sa =>
    simp only [Res.bind] at h
    cases he : env_variable a sa with
    | ret u su =>
      rw [he] at h
      simp only [Res.bind, Res.ret.injEq] at h
      rw [← h.2, ← h.1]
      exact getenv_env_variable _ _ _ _ he
    | exited c sb => rw [he] at h; simp [Res.bind] at h
    | execd c sb => rw [he] at h; simp [Res.bind] at h
    | fault sb => rw [he] at h; simp [Res.bind] at h
  | exited c sa => simp [Res.bind] at h
  | execd c sa => simp [Res.bind] at h
  | fault sa => simp [Res.bind] at h

/-! ## The descriptor table -/

theorem getFd_setFd_same (t : List (Option OpenFile)) (n : Nat) (e : Option OpenFile) :
    getFd (setFd t n e) n = e := by
  induction n generalizing t with
  | zero => cases t <;> rfl
  | succ k ih => cases t <;> simp [setFd, getFd, ih]

theorem getFd_setFd_ne (t : List (Option OpenFile)) (n m : Nat) (e : Option OpenFile)
    (h : m ≠ n) : getFd (setFd t n e) m = getFd t m := by
  induction n generalizing t m with
  | zero =>
    cases m with
    | zero => exact absurd rfl h
    | succ j => cases t <;> simp [setFd, getFd]
  | succ k ih =>
    cases m with
    | zero => cases t <;> simp [setFd, getFd]
    | succ j =>
      have hj : j ≠ k := fun e => h (by rw [e])
      cases t with
      | nil => simp only [setFd, getFd]; rw [ih [] j hj]; cases j <;> rfl
      | cons x t => simp only [setFd, getFd]; exact ih t j hj

theorem getFd_lowestFree (t : List (Option OpenFile)) : getFd t (lowestFree t) = none := by
  induction t with
  | nil => rfl
  | cons x t ih =>
    cases x with
    | none => rfl
    | some o => simpa [lowestFree, getFd] using ih

theorem getFd_below_lowestFree (t : List (Option OpenFile)) (k : Nat)
    (h : k < lowestFree t) : (getFd t k).isSome = true := by
  induction t generalizing k with
  | nil => simp [lowestFree] at h
  | cons x t ih =>
    cases x with
    | none => simp [lowestFree] at h
    | some o =>
      cases k with
      | zero => rfl
      | succ j =>
        simp only [lowestFree, Nat.add_lt_add_iff_right] at h
        simpa [getFd] using ih j h

/-- The lowest free descriptor is characterised by being free with every lower
descriptor open. -/
theorem lowestFree_eq (t : List (Option OpenFile)) (n : Nat) (hn : getFd t n = none)
    (hlow : ∀ k, k < n → (getFd t k).isSome = true) : lowestFree t = n := by
  rcases Nat.lt_trichotomy (lowestFree t) n with h | h | h
  · have := hlow _ h
    rw [getFd_lowestFree] at this
    simp at this
  · exact h
  · have := getFd_below_lowestFree t n h
    rw [hn] at this
    simp at this

theorem lowestFree_pos (t : List (Option OpenFile)) (o : OpenFile) (h : getFd t 0 = some o) :
    0 < lowestFree t := by
  cases t with
  | nil => simp [getFd] at h
  | cons x t =>
    cases x with
    | none => simp [getFd] at h
    | some y => simp [lowestFree]

theorem getFd_advance (id d : Nat) (t : List (Option OpenFile)) (k : Nat) :
    (getFd (advance id d t) k).isSome = (getFd t k).isSome := by
  induction t generalizing k with
  | nil => rfl
  | cons x t ih =>
    cases k with
    | zero =>
      cases x with
      | none => rfl
      | some o => simp only [advance, List.map, getFd]; split <;> rfl
    | succ j => simpa [advance, getFd] using ih j

theorem close_open_fd (n : Nat) (s : State) (e : OpenFile) (h : getFd s.fds n = some e) :
    (close n s).fds = setFd s.fds n none := by
  unfold close
  have : ¬ ((n : Int) < 0) := by omega
  simp [this, h]

theorem dup2_open_fd (n m : Nat) (s : State) (e : OpenFile) (h : getFd s.fds n = some e)
    (hne : n ≠ m) : (dup2 n m s).fds = setFd s.fds m (some e) := by
  unfold dup2
  have : ¬ ((n : Int) < 0) := by omega
  simp [this, h, hne]

/-- A successful `mkstemp`: a new empty file, open for reading and writing on
the lowest free descriptor. -/
theorem mkstemp_ok (s : State) (m : Reply) (rest : List Reply) (hos : s.os = m :: rest)
    (hm : m.err = 0) (hfresh : s.files.lookup (tmpName m.val) = none) :
    (mkstemp s).1 = (((lowestFree s.fds : Nat) : Int), tmpName m.val) ∧
    (mkstemp s).2.os = rest ∧
    (mkstemp s).2.fds = setFd s.fds (lowestFree s.fds)
      (some ⟨s.nextId, Obj.file (tmpName m.val), true, true, false, 0⟩) ∧
    (mkstemp s).2.nextId = s.nextId + 1 ∧
    (mkstemp s).2.files.lookup (tmpName m.val) = some [] := by
  obtain ⟨r1, r2⟩ := sys_reply Call.mkstemp s m rest hos
  unfold mkstemp
  simp only [r1, hm, sys_files, hfresh]
  simp [install, setContent, hos]

/-- A successful `write` through a descriptor open on a regular file without
`O_APPEND`. -/
theorem write_ok (s : State) (w : Reply) (rest : List Reply) (n : Nat) (e : OpenFile)
    (name : String) (data : List Char) (hos : s.os = w :: rest) (hw : w.err = 0)
    (hfd : getFd s.fds n = some e) (hobj : e.obj = Obj.file name)
    (hwr : e.writable = true) (happ : e.append = false) :
    (write n data s).1 = data.length ∧
    (write n data s).2.os = rest ∧
    (write n data s).2.fds = advance e.id (e.offset + data.length - e.offset) s.fds ∧
    (write n data s).2.nextId = s.nextId ∧
    (write n data s).2.files.lookup name =
      some ((fileContent s name).take e.offset ++ data ++
            (fileContent s name).drop (e.offset + data.length)) := by
  obtain ⟨r1, r2⟩ := sys_reply (Call.write n data) s w rest hos
  unfold write
  simp only [Int.toNat_ofNat, r1, hw, sys_fds, hfd, hobj]
  simp [hwr, happ, setContent, hos, fileContent]

/-- A successful `open` of an existing file without `O_CREAT` and `O_TRUNC`. -/
theorem open_ok (s : State) (o : Reply) (rest : List Reply) (p : String) (fl : OFlags)
    (hos : s.os = o :: rest) (ho : o.err = 0) (htr : fl.trunc = false)
    (hcr : fl.creat = false) :
    (open_ p fl s).1 = (lowestFree s.fds : Nat) ∧
    (open_ p fl s).2.os = rest ∧
    (open_ p fl s).2.fds = setFd s.fds (lowestFree s.fds)
      (some ⟨s.nextId, Obj.file p, true, fl.rdwr, fl.append, 0⟩) ∧
    (open_ p fl s).2.files = s.files := by
  obtain ⟨r1, r2⟩ := sys_reply (Call.open_ p fl) s o rest hos
  unfold open_
  simp only [r1, ho]
  simp [install, htr, hcr, hos]

/-! ## The reaping loop -/

/-- The bound on the number of turns that `reap` gives to `reapLoop` is never
reached: any two bounds above the length of the script give the same result. -/
theorem reapLoop_fuel (n m : Nat) (s : State) (hn : s.os.length < n) (hm : s.os.length < m) :
    reapLoop n s = reapLoop m s := by
  induction n generalizing m s with
  | zero => omega
  | succ k ih =>
    cases m with
    | zero => omega
    | succ j =>
      unfold reapLoop
      simp only [call]
      split
      · rename_i hw
        have hne := waitany_pid_pos s hw
        have hlen : 0 < s.os.length := List.length_pos.mpr hne
        split
        · rfl
        · apply ih
          · simp only [fprintf_os, waitany_os, List.length_tail]; omega
          · simp only [fprintf_os, waitany_os, List.length_tail]; omega
      · rfl

theorem reapLoop_env (n : Nat) (s s1 : State) (h : reapLoop n s = Res.ret none s1) :
    s1.env = s.env := by
  induction n generalizing s with
  | zero =>
    simp only [reapLoop, Res.ret.injEq, true_and] at h
    rw [h]
  | succ k ih =>
    unfold reapLoop at h
    simp only [call] at h
    split at h
    · split at h
      · cases he : env_variable (fprintf _ (waitany s).2).1
            (perror "fprintf() error" (fprintf _ (waitany s).2).2) <;>
          rw [he] at h <;> simp [Res.bind] at h
      · rw [ih _ h]
        simp
    · simp only [Res.ret.injEq, true_and] at h
      rw [← h]
      simp

/-! ## The record of calls only grows -/

theorem printStack_tlen (fmt : String → String) (l : List String) (s : State) :
    s.trace.length ≤ (printStack fmt l s).2.trace.length := by
  induction l generalizing s with
  | nil => simp [printStack]
  | cons d t ih =>
    unfold printStack
    simp only [call]
    split
    · simp only [perror_trace, List.length_append, printf_tlen]; omega
    · exact le_trans (by simp) (ih _)

theorem bind_tlen {α β : Type} (n : Nat) (r : Res α) (k : α → State → Res β)
    (h1 : n ≤ r.state.trace.length)
    (h2 : ∀ v s1, n ≤ s1.trace.length → n ≤ (k v s1).state.trace.length) :
    n ≤ (r.bind k).state.trace.length := by
  cases r with
  | ret v s1 => exact h2 v s1 h1
  | exited c s1 => exact h1
  | execd a s1 => exact h1
  | fault s1 => exact h1

theorem call_tlen {α β : Type} (n : Nat) (x : α × State) (k : α → State → Res β)
    (h1 : n ≤ x.2.trace.length)
    (h2 : ∀ v s1, n ≤ s1.trace.length → n ≤ (k v s1).state.trace.length) :
    n ≤ (call x k).state.trace.length :=
  h2 _ _ h1

theorem ite_tlen {α : Type} (n : Nat) (c : Prop) [Decidable c] (a b : Res α)
    (ha : n ≤ a.state.trace.length) (hb : n ≤ b.state.trace.length) :
    n ≤ (if c then a else b).state.trace.length := by
  split <;> assumption

theorem env_variable_tlen (n : Nat) (v : Int) (s : State) (h : n ≤ s.trace.length) :
    n ≤ (env_variable v s).state.trace.length := by
  rw [env_variable_trace]
  exact h

theorem reapLoop_tlen (n : Nat) (s : State) :
    s.trace.length + 1 ≤ (reapLoop (n + 1) s).state.trace.length := by
  induction n generalizing s with
  | zero =>
    unfold reapLoop
    simp only [call]
    repeat (any_goals split)
    all_goals simp [reapLoop, Res.state]
    apply bind_tlen
    · simp
    · intro _ _ h; exact h
  | succ k ih =>
    unfold reapLoop
    simp only [call]
    split
    · split
      · apply bind_tlen
        · simp
        · intro _ _ h; exact h
      · exact le_trans (by simp) (ih _)
    · simp [Res.state]

theorem reap_tlen (s : State) : s.trace.length + 1 ≤ (reap s).state.trace.length :=
  reapLoop_tlen _ s

theorem redirect_stdin_tlen (c : CMD) (s : State) :
    s.trace.length ≤ (redirect_stdin c s).state.trace.length := by
  cases c with
  | null => simp [redirect_stdin, Res.state]
  | node ty f l r =>
    unfold redirect_stdin
    simp only [call]
    repeat (any_goals split)
    all_goals (simp [Res.state] <;> omega)

theorem redirect_stdout_tlen (c : CMD) (s : State) :
    s.trace.length ≤ (redirect_stdout c s).state.trace.length := by
  cases c with
  | null => simp [redirect_stdout, Res.state]
  | node ty f l r =>
    unfold redirect_stdout
    simp only [call]
    repeat (any_goals split)
    all_goals (simp [Res.state] <;> omega)

theorem redirect_stdin_builtin_tlen (c : CMD) (s : State) :
    s.trace.length ≤ (redirect_stdin_builtin c s).state.trace.length := by
  cases c with
  | null => simp [redirect_stdin_builtin, Res.state]
  | node ty f l r =>
    unfold redirect_stdin_builtin
    simp only [call]
    repeat (any_goals split)
    all_goals (simp [Res.state] <;> omega)

theorem redirect_stdout_builtin_tlen (c : CMD) (s : State) :
    s.trace.length ≤ (redirect_stdout_builtin c s).state.trace.length := by
  cases c with
  | null => simp [redirect_stdout_builtin, Res.state]
  | node ty f l r =>
    unfold redirect_stdout_builtin
    simp only [call]
    repeat (any_goals split)
    all_goals (simp [Res.state] <;> omega)

theorem pushd_command_tlen (c : CMD) (s : State) :
    s.trace.length ≤ (pushd_command c s).state.trace.length := by
  cases c with
  | null => simp [pushd_command, Res.state]
  | node ty f l r =>
    unfold pushd_command
    repeat first
      | (simp only [Res.state, perror_trace, List.length_append, List.length_singleton,
          getcwd_tlen, chdir_tlen, get_current_dir_name_tlen, printf_tlen, setHead_trace]; omega)
      | exact le_trans (by assumption) (printStack_tlen _ _ _)
      | intro _ _ _
      | split
      | apply call_tlen

theorem popd_command_tlen (c : CMD) (s : State) :
    s.trace.length ≤ (popd_command c s).state.trace.length := by
  unfold popd_command
  repeat first
    | (simp only [Res.state, perror_trace, List.length_append, List.length_singleton,
        getcwd_tlen, chdir_tlen, get_current_dir_name_tlen, printf_tlen, setHead_trace]; omega)
    | exact printStack_tlen _ _ _
    | exact le_trans (by assumption) (printStack_tlen _ _ _)
    | intro _ _ _
    | split
    | apply call_tlen

theorem built_in_command_tlen (c : CMD) (s : State) :
    s.trace.length ≤ (built_in_command c s).state.trace.length := by
  cases c with
  | null => simp [built_in_command, Res.state]
  | node ty f l r =>
    rw [built_in_command]
    apply bind_tlen
    · exact le_trans (by simp) (redirect_stdin_builtin_tlen _ _)
    · intro x s1 h1
      split
      · exact h1
      · apply bind_tlen
        · exact le_trans h1 (redirect_stdout_builtin_tlen _ _)
        · intro y s2 h2
          split
          · exact h2
          · split
            · exact h2
            · rename_i command rest harg
              dsimp only
              generalize (if command = "popd" then (3 : Int)
                else if command = "pushd" then 2 else if command = "cd" then 1 else 0) = t
              split_ifs
              all_goals first
                | exact h2
                | exact le_trans h2 (pushd_command_tlen _ _)
                | exact le_trans h2 (popd_command_tlen _ _)
                | (simp only [Res.state, perror_trace, List.length_append,
                    List.length_singleton]; omega)
                | (simp only [call]; split <;>
                    simp only [Res.state, perror_trace, List.length_append,
                      List.length_singleton, chdir_tlen] <;> omega)

theorem simple_command_tlen (c : CMD) (s : State) :
    s.trace.length ≤ (simple_command c s).state.trace.length := by
  unfold simple_command
  repeat first
    | (simp only [Res.state, perror_trace, List.length_append, List.length_singleton,
        fork_trace, signal_tlen, waitpid_tlen, sys_tlen, setErrno_trace, setLocals_trace]; omega)
    | exact le_trans (by simpa using (by assumption)) (redirect_stdin_tlen _ _)
    | exact le_trans (by assumption) (redirect_stdout_tlen _ _)
    | intro _ _ _
    | split
    | apply call_tlen
    | apply bind_tlen

theorem and_command_tlen (ty : CmdType) (f : Fields) (l r : CMD)
    (hl : ∀ s, s.trace.length ≤ (process l s).state.trace.length)
    (hr : ∀ s, s.trace.length ≤ (process r s).state.trace.length) (s : State) :
    s.trace.length ≤ (and_command (CMD.node ty f l r) s).state.trace.length := by
  rw [and_command]
  apply bind_tlen
  · exact hl s
  · intro A s1 h1
    split
    · apply bind_tlen
      · exact le_trans h1 (hr s1)
      · intro B s2 h2
        split <;> exact h2
    · exact h1

theorem or_command_tlen (ty : CmdType) (f : Fields) (l r : CMD)
    (hl : ∀ s, s.trace.length ≤ (process l s).state.trace.length)
    (hr : ∀ s, s.trace.length ≤ (process r s).state.trace.length) (s : State) :
    s.trace.length ≤ (or_command (CMD.node ty f l r) s).state.trace.length := by
  rw [or_command]
  apply bind_tlen
  · exact hl s
  · intro A s1 h1
    split
    · apply bind_tlen
      · exact le_trans h1 (hr s1)
      · intro B s2 h2
        split <;> exact h2
    · exact h1

theorem end_command_tlen (ty : CmdType) (f : Fields) (l r : CMD)
    (hl : ∀ s, s.trace.length ≤ (process l s).state.trace.length)
    (hr : ∀ s, s.trace.length ≤ (process r s).state.trace.length) (s : State) :
    s.trace.length ≤ (end_command (CMD.node ty f l r) s).state.trace.length := by
  rw [end_command]
  apply bind_tlen
  · exact hl s
  · intro A s1 h1
    split
    · exact le_trans h1 (hr s1)
    · exact h1

theorem pipe_command_tlen (ty : CmdType) (f : Fields) (l r : CMD)
    (hl : ∀ s, s.trace.length ≤ (process l s).state.trace.length)
    (hr : ∀ s, s.trace.length ≤ (process r s).state.trace.length) (s : State) :
    s.trace.length ≤ (pipe_command (CMD.node ty f l r) s).state.trace.length := by
  rw [pipe_command]
  repeat first
    | intro _ _ _
    | apply call_tlen
    | apply bind_tlen
    | apply ite_tlen
    | (simp only [Res.state, perror_trace, List.length_append, List.length_singleton,
        signal_tlen, waitpid_tlen, close_trace, pipe_tlen, fork_trace]; omega)
    | exact le_trans (by simpa using (by assumption)) (hl _)
    | exact le_trans (by simpa using (by assumption)) (hr _)

theorem sub_command_tlen (ty : CmdType) (f : Fields) (l r : CMD)
    (hl : ∀ s, s.trace.length ≤ (process l s).state.trace.length) (s : State) :
    s.trace.length ≤ (sub_command (CMD.node ty f l r) s).state.trace.length := by
  rw [sub_command]
  repeat first
    | intro _ _ _
    | apply call_tlen
    | apply bind_tlen
    | apply ite_tlen
    | (simp only [Res.state, perror_trace, List.length_append, List.length_singleton,
        signal_tlen, waitpid_tlen, close_trace, fork_trace]; omega)
    | exact le_trans (by simpa using (by assumption)) (redirect_stdin_tlen _ _)
    | exact le_trans (by assumption) (redirect_stdout_tlen _ _)
    | exact le_trans (by assumption) (hl _)

theorem background_command_tlen (ty : CmdType) (f : Fields) (lt : CmdType) (lf : Fields)
    (ll lr right : CMD)
    (h1 : ∀ s, s.trace.length ≤ (background_command_helper ll s).state.trace.length)
    (h2 : ∀ s, s.trace.length ≤ (background_command_helper lr s).state.trace.length)
    (h3 : ∀ s, s.trace.length ≤ (process ll s).state.trace.length)
    (h4 : ∀ s, s.trace.length ≤
      (background_command_helper (CMD.node lt lf ll lr) s).state.trace.length)
    (h5 : ∀ s, s.trace.length ≤ (process right s).state.trace.length) (s : State) :
    s.trace.length ≤
      (background_command (CMD.node ty f (CMD.node lt lf ll lr) right) s).state.trace.length := by
  rw [background_command]
  repeat first
    | intro _ _ _
    | apply call_tlen
    | apply bind_tlen
    | apply ite_tlen
    | (simp only [Res.state, readLocal_trace]; omega)
    | exact h1 _
    | exact h4 _
    | exact le_trans (by assumption) (h2 _)
    | exact le_trans (by assumption) (h3 _)
    | exact le_trans (by assumption) (h4 _)
    | exact le_trans (by assumption) (h5 _)

theorem background_command_helper_tlen (ty : CmdType) (f : Fields) (left right : CMD)
    (h1 : ∀ s, s.trace.length ≤ (background_command left s).state.trace.length)
    (h2 : ∀ s, s.trace.length ≤ (background_command right s).state.trace.length)
    (h3 : ∀ s, s.trace.length ≤ (process left s).state.trace.length)
    (h4 : ∀ s, s.trace.length ≤ (background_command_helper right s).state.trace.length)
    (h5 : ∀ s, s.trace.length ≤ (process (CMD.node ty f left right) s).state.trace.length)
    (s : State) :
    s.trace.length ≤
      (background_command_helper (CMD.node ty f left right) s).state.trace.length := by
  rw [background_command_helper]
  repeat first
    | intro _ _ _
    | apply call_tlen
    | apply bind_tlen
    | apply env_variable_tlen
    | apply ite_tlen
    | (simp only [Res.state, readLocal_trace, env_variable_trace, perror_trace, fork_trace,
        fprintf_trace, List.length_append, List.length_singleton]; omega)
    | exact h1 _
    | exact h3 _
    | exact le_trans (by assumption) (h2 _)
    | exact le_trans (by assumption) (h4 _)
    | exact le_trans (by assumption) (h5 _)

theorem process_null_tlen (s : State) :
    s.trace.length + 1 ≤ (process CMD.null s).state.trace.length := by
  rw [process]
  apply bind_tlen
  · exact reap_tlen s
  · intro failed s1 h
    split <;> exact h

theorem process_node_tlen (ty : CmdType) (f : Fields) (l r : CMD)
    (hl : ∀ s, s.trace.length ≤ (process l s).state.trace.length)
    (hr : ∀ s, s.trace.length ≤ (process r s).state.trace.length)
    (hb : ∀ s, s.trace.length ≤ (background_command (CMD.node ty f l r) s).state.trace.length)
    (s : State) :
    s.trace.length + 1 ≤ (process (CMD.node ty f l r) s).state.trace.length := by
  rw [process]
  apply bind_tlen
  · exact reap_tlen s
  · intro failed s1 h
    split
    · exact h
    · apply bind_tlen
      · split
        · split
          · exact h
          · split
            · exact le_trans h (built_in_command_tlen _ _)
            · exact le_trans h (simple_command_tlen _ _)
        · exact le_trans h (pipe_command_tlen _ _ _ _ hl hr _)
        · exact le_trans h (and_command_tlen _ _ _ _ hl hr _)
        · exact le_trans h (or_command_tlen _ _ _ _ hl hr _)
        · exact le_trans h (sub_command_tlen _ _ _ _ hl _)
        · exact le_trans h (end_command_tlen _ _ _ _ hl hr _)
        · exact le_trans h (hb _)
      · intro v s2 h2
        apply bind_tlen
        · exact env_variable_tlen _ _ _ h2
        · intro _ _ h3
          exact h3

/-- Every evaluation only adds to the record of calls, and `process` adds at
least the `waitpid` of its reaping loop. -/
theorem eval_tlen (n : Nat) : ∀ c : CMD, c.size ≤ n →
    (∀ s, s.trace.length + 1 ≤ (process c s).state.trace.length) ∧
    (∀ s, s.trace.length ≤ (background_command c s).state.trace.length) ∧
    (∀ s, s.trace.length ≤ (background_command_helper c s).state.trace.length) := by
  induction n with
  | zero =>
    intro c hc
    cases c with
    | null =>
      refine ⟨process_null_tlen, ?_, ?_⟩
      · intro s; rw [background_command]; exact le_refl _
      · intro s; rw [background_command_helper]; exact le_refl _
    | node ty f l r => simp [CMD.size] at hc
  | succ k ih =>
    intro c hc
    cases c with
    | null =>
      refine ⟨process_null_tlen, ?_, ?_⟩
      · intro s; rw [background_command]; exact le_refl _
      · intro s; rw [background_command_helper]; exact le_refl _
    | node ty f l r =>
      simp only [CMD.size] at hc
      obtain ⟨pl, bl, hl⟩ := ih l (by omega)
      obtain ⟨pr, br, hr⟩ := ih r (by omega)
      have pl0 : ∀ s, s.trace.length ≤ (process l s).state.trace.length :=
        fun s => Nat.le_of_succ_le (pl s)
      have pr0 : ∀ s, s.trace.length ≤ (process r s).state.trace.length :=
        fun s => Nat.le_of_succ_le (pr s)
      have hb : ∀ s, s.trace.length ≤
          (background_command (CMD.node ty f l r) s).state.trace.length := by
        cases l with
        | null => intro s; rw [background_command]; exact le_refl _
        | node lt lf ll lr =>
          simp only [CMD.size] at hc
          obtain ⟨pll, _, hll⟩ := ih ll (by omega)
          obtain ⟨_, _, hlr⟩ := ih lr (by omega)
          exact background_command_tlen ty f lt lf ll lr r hll hlr
            (fun s => Nat.le_of_succ_le (pll s)) hl pr0
      have hp := process_node_tlen ty f l r pl0 pr0 hb
      exact ⟨hp, hb, background_command_helper_tlen ty f l r bl br pl0 hr
        (fun s => Nat.le_of_succ_le (hp s))⟩

/-- Evaluating a tree with `process` adds at least one call to the record. -/
theorem process_tlen (c : CMD) (s : State) :
    s.trace.length < (process c s).state.trace.length :=
  (eval_tlen c.size c (le_refl _)).1 s

/-! ## Pipelines -/

/-- C1 (pipeline status composition): when the pipe, the two forks, the two
`signal` calls and the two waits succeed, the parent of a `Pipe` node returns,
with `a` and `b` the statuses `STATUS` makes of the wait statuses of the left
and right child: `0` if `a = 0` and `b = 0`, `a` if `a ≠ 0` and `b = 0`, and `b`
whenever `b ≠ 0`; that is, `b` if `b ≠ 0` and else `a`. -/
theorem pipe_status_composition (ty : CmdType) (f : Fields) (left right : CMD) (s : State)
    (rp rl rr g1 wl wr g2 : Reply) (rest : List Reply)
    (hos : s.os = rp :: rl :: rr :: g1 :: wl :: wr :: g2 :: rest)
    (hp : rp.err = 0) (hl : rl.err = 0) (hlp : 0 < rl.val)
    (hr : rr.err = 0) (hrp : 0 < rr.val)
    (hg1 : g1.err = 0) (hwl : wl.err = 0) (hwr : wr.err = 0) (hg2 : g2.err = 0) :
    ∃ v s1, pipe_command (CMD.node ty f left right) s = Res.ret v s1 ∧
      v = (if STATUS wr.status ≠ 0 then STATUS wr.status else STATUS wl.status) ∧
      (STATUS wl.status = 0 ∧ STATUS wr.status = 0 → v = 0) ∧
      (STATUS wl.status ≠ 0 ∧ STATUS wr.status = 0 → v = STATUS wl.status) ∧
      (STATUS wr.status ≠ 0 → v = STATUS wr.status) := by
  have hl0 : ¬ ((rl.val : Int) < 0) := by omega
  have hl1 : ¬ ((rl.val : Int) = 0) := by omega
  have hr0 : ¬ ((rr.val : Int) < 0) := by omega
  have hr1 : ¬ ((rr.val : Int) = 0) := by omega
  rw [pipe_command]
  simp only [call]
  obtain ⟨p1, p2⟩ := pipe_ok s rp _ hos hp
  generalize pipe s = ps at *
  obtain ⟨f1, f2⟩ := fork_ok _ rl _ p2 hl
  generalize fork ps.2 = fs at *
  obtain ⟨k1, k2⟩ := fork_ok _ rr _ f2 hr
  generalize fork fs.2 = ks at *
  have c2 : (close ps.1.2.2 (close ps.1.2.1 ks.2)).os = g1 :: wl :: wr :: g2 :: rest := by
    rw [close_os, close_os]; exact k2
  generalize close ps.1.2.2 (close ps.1.2.1 ks.2) = cs at *
  obtain ⟨a1, a2⟩ := signal_ok true _ g1 _ c2 hg1
  generalize signal true cs = gs at *
  obtain ⟨w1, w2⟩ := waitpid_ok fs.1 _ wl _ a2 hwl
  generalize waitpid fs.1 gs.2 = ws at *
  obtain ⟨x1, x2⟩ := waitpid_ok ks.1 _ wr _ w2 hwr
  generalize waitpid ks.1 ws.2 = xs at *
  obtain ⟨b1, b2⟩ := signal_ok false _ g2 _ x2 hg2
  generalize signal false xs.2 = bs at *
  simp only [p1, f1, k1, a1, w1, x1, b1, hl0, hl1, hr0, hr1, lt_self_iff_false, if_false,
    Bool.false_eq_true]
  by_cases ha : STATUS wl.status = 0 <;> by_cases hb : STATUS wr.status = 0 <;>
    simp [ha, hb]

/-- C1 at a pipeline whose left stage exits with `1` and whose right stage exits
with `0`. -/
theorem pipe_status_composition_witness :
    pipeParent.os =
      [{}, { val := 10 }, { val := 11 }, {}, { status := 256 }, { status := 0 }, {}] ∧
    STATUS 256 = 1 ∧ STATUS 0 = 0 ∧
    ∃ v s1, pipe_command pipeNode pipeParent = Res.ret v s1 ∧
      v = (if STATUS 0 ≠ 0 then STATUS 0 else STATUS 256) ∧
      (STATUS 256 = 0 ∧ STATUS 0 = 0 → v = 0) ∧
      (STATUS 256 ≠ 0 ∧ STATUS 0 = 0 → v = STATUS 256) ∧
      (STATUS 0 ≠ 0 → v = STATUS 0) :=
  ⟨rfl, by decide, by decide,
   pipe_status_composition CmdType.PIPE {} sleepNode sleepNode pipeParent
     {} { val := 10 } { val := 11 } {} { status := 256 } { status := 0 } {} []
     rfl rfl rfl (by decide) rfl (by decide) rfl rfl rfl rfl⟩

/-! ## The operators `&&` and `||` -/

/-- C2 (And semantics): `and_command` evaluates the left child `A` first; when
`A` returns `0` the right child `B` is evaluated from the state `A` left and its
result is the result; when `A` returns a non-zero status, that status is
returned in the very state `A` left.  `B` is evaluated, adding its calls to the
record, if and only if `A` returned `0`. -/
theorem and_semantics (ty : CmdType) (f : Fields) (A B : CMD) (s : State) :
    and_command (CMD.node ty f A B) s =
      (match process A s with
       | Res.ret a s1 => if a = 0 then process B s1 else Res.ret a s1
       | Res.exited c s1 => Res.exited c s1
       | Res.execd v s1 => Res.execd v s1
       | Res.fault s1 => Res.fault s1) ∧
    ∀ a s1, process A s = Res.ret a s1 →
      (a = 0 ↔
        s1.trace.length < (and_command (CMD.node ty f A B) s).state.trace.length) := by
  have heq : and_command (CMD.node ty f A B) s =
      (match process A s with
       | Res.ret a s1 => if a = 0 then process B s1 else Res.ret a s1
       | Res.exited c s1 => Res.exited c s1
       | Res.execd v s1 => Res.execd v s1
       | Res.fault s1 => Res.fault s1) := by
    rw [and_command]
    cases hA : process A s with
    | ret a s1 =>
      simp only [Res.bind]
      split
      · have : (fun (B : Int) (s : State) => if B = 0 then Res.ret 0 s else Res.ret B s) =
            fun v s => Res.ret v s := by
          funext v s2; split <;> simp_all
        rw [this]
        cases process B s1 <;> rfl
      · rfl
    | exited c s1 => rfl
    | execd v s1 => rfl
    | fault s1 => rfl
  refine ⟨heq, ?_⟩
  intro a s1 hA
  rw [heq, hA]
  by_cases ha : a = 0
  · simp only [ha, if_true, true_iff]
    exact process_tlen B s1
  · simp [ha, Res.state]

/-- C2 at `false && cd /tmp`: the left child returns `1` and nothing is added to
the record after it. -/
theorem and_semantics_witness :
    process falseNode childFails = Res.ret 1 (process falseNode childFails).state ∧
    ((1 : Int) = 0 ↔
      (process falseNode childFails).state.trace.length <
        (and_command andFalseCd childFails).state.trace.length) :=
  have h : process falseNode childFails = Res.ret 1 (process falseNode childFails).state := by
    unfold falseNode
    simp only [process]
    decide
  ⟨h, (and_semantics CmdType.SEP_AND {} falseNode cdTmp childFails).2 1 _ h⟩

/-- C3 (Or semantics): `or_command` evaluates the left child `A` first; when `A`
returns a non-zero status the right child `B` is evaluated from the state `A`
left and its result is the result; when `A` returns `0`, `0` is returned in the
very state `A` left.  `B` is evaluated, adding its calls to the record, if and
only if `A` returned a non-zero status. -/
theorem or_semantics (ty : CmdType) (f : Fields) (A B : CMD) (s : State) :
    or_command (CMD.node ty f A B) s =
      (match process A s with
       | Res.ret a s1 => if a ≠ 0 then process B s1 else Res.ret 0 s1
       | Res.exited c s1 => Res.exited c s1
       | Res.execd v s1 => Res.execd v s1
       | Res.fault s1 => Res.fault s1) ∧
    ∀ a s1, process A s = Res.ret a s1 →
      (a ≠ 0 ↔
        s1.trace.length < (or_command (CMD.node ty f A B) s).state.trace.length) := by
  have heq : or_command (CMD.node ty f A B) s =
      (match process A s with
       | Res.ret a s1 => if a ≠ 0 then process B s1 else Res.ret 0 s1
       | Res.exited c s1 => Res.exited c s1
       | Res.execd v s1 => Res.execd v s1
       | Res.fault s1 => Res.fault s1) := by
    rw [or_command]
    cases hA : process A s with
    | ret a s1 =>
      simp only [Res.bind]
      split
      · have : (fun (B : Int) (s : State) => if B ≠ 0 then Res.ret B s else Res.ret 0 s) =
            fun v s => Res.ret v s := by
          funext v s2; split <;> simp_all
        rw [this]
        cases process B s1 <;> rfl
      · rfl
    | exited c s1 => rfl
    | execd v s1 => rfl
    | fault s1 => rfl
  refine ⟨heq, ?_⟩
  intro a s1 hA
  rw [heq, hA]
  by_cases ha : a = 0
  · simp [ha, Res.state]
  · simp only [ne_eq, ha, not_false_eq_true, if_true, true_iff]
    exact process_tlen B s1

/-- C3 at `true || cd /tmp`: the left child returns `0` and nothing is added to
the record after it. -/
theorem or_semantics_witness :
    process trueNode childSucceeds = Res.ret 0 (process trueNode childSucceeds).state ∧
    ((0 : Int) ≠ 0 ↔
      (process trueNode childSucceeds).state.trace.length <
        (or_command orTrueCd childSucceeds).state.trace.length) :=
  have h : process trueNode childSucceeds =
      Res.ret 0 (process trueNode childSucceeds).state := by
    unfold trueNode
    simp only [process]
    decide
  ⟨h, (or_semantics CmdType.SEP_OR {} trueNode cdTmp childSucceeds).2 0 _ h⟩

/-! ## The variable `?` -/

/-- C4, amended: for every non-null tree, when no diagnostic write fails while
reaping, after `process` returns status `v` the variable `?` holds the decimal
rendering of `v`; for the null tree `process` returns `0` and leaves `?` as it
was. -/
theorem process_publishes_status (ty : CmdType) (f : Fields) (l r : CMD) (s s0 s1 : State)
    (v : Int) (hreap : reap s = Res.ret none s0)
    (h : process (CMD.node ty f l r) s = Res.ret v s1) :
    getenv "?" s1 = some (toString v) ∧
    process CMD.null s = Res.ret 0 s0 ∧
    getenv "?" s0 = getenv "?" s := by
  refine ⟨?_, ?_, ?_⟩
  · rw [process, hreap] at h
    simp only [Res.bind] at h
    exact bind_env_variable _ _ _ h
  · rw [process, hreap]
    simp only [Res.bind]
  · unfold getenv
    rw [show s0.env = s.env from reapLoop_env _ _ _ hreap]

/-- C4, amended, at `cd /tmp` run after a command that left `7` in `?`. -/
theorem process_publishes_status_witness :
    reap prev7 = Res.ret none (reap prev7).state ∧
    process cdTmp prev7 = Res.ret 0 (process cdTmp prev7).state ∧
    getenv "?" (process cdTmp prev7).state = some (toString (0 : Int)) ∧
    process CMD.null prev7 = Res.ret 0 (reap prev7).state ∧
    getenv "?" (reap prev7).state = getenv "?" prev7 :=
  have h : process cdTmp prev7 = Res.ret 0 (process cdTmp prev7).state := by
    unfold cdTmp
    simp only [process]
    decide
  ⟨by decide, h,
    process_publishes_status CmdType.SIMPLE _ CMD.null CMD.null prev7 _ _ 0 (by decide) h⟩

/-- C4, counterexample: on the null tree `process` returns `0` while `?` still
holds the status `7` of the command before. -/
theorem process_null_keeps_status :
    process CMD.null prev7 = Res.ret 0 (process CMD.null prev7).state ∧
    getenv "?" (process CMD.null prev7).state = some "7" ∧
    getenv "?" (process CMD.null prev7).state ≠ some (toString (0 : Int)) := by
  simp only [process]
  decide

/-- When the diagnostic write of the reaping loop fails, `process` returns the
error number (`9` here) but `?` is set to the result of `fprintf` (`-1`). -/
theorem process_failed_write_status :
    process cdTmp failedWrite = Res.ret 9 (process cdTmp failedWrite).state ∧
    getenv "?" (process cdTmp failedWrite).state = some "-1" := by
  unfold cdTmp
  simp only [process]
  decide

/-! ## The directory stack -/

theorem pushd_command_ok (ty : CmdType) (f : Fields) (l r : CMD) (s s1 : State)
    (h : pushd_command (CMD.node ty f l r) s = Res.ret 0 s1) :
    s1.head = s.cwd :: s.head := by
  unfold pushd_command at h
  simp only [call] at h
  split at h
  · rename_i e
    have := getcwd_none s e
    simp only [Res.ret.injEq] at h
    exact absurd h.1 this
  · rename_i dir e
    have hd := getcwd_some s dir e
    split at h
    · rename_i c
      have := ((chdir_cwd _ _).1 c).2
      simp only [Res.ret.injEq] at h
      exact absurd h.1 this
    · split at h
      · rename_i e2
        have := get_current_dir_name_none _ e2
        simp only [Res.ret.injEq] at h
        exact absurd h.1 this
      · split at h
        · rename_i e3
          have := printf_fail _ _ e3
          simp only [Res.ret.injEq] at h
          exact absurd h.1 this
        · split at h
          · rename_i x e4
            have := (printStack_spec _ _ _).2.2 x e4
            simp only [Res.ret.injEq] at h
            exact absurd h.1 this
          · split at h
            · rename_i e5
              have := printf_fail _ _ e5
              simp only [Res.ret.injEq] at h
              exact absurd h.1 this
            · simp only [Res.ret.injEq, true_and] at h
              rw [← h]
              simp [(printStack_spec _ _ _).2.1, hd]

theorem popd_command_ok (c : CMD) (s s1 : State) (top : String) (next : List String)
    (e : s.head = top :: next)
    (h : popd_command c s = Res.ret 0 s1) :
    s1.head = next ∧ s1.cwd = top := by
  unfold popd_command at h
  simp only [e, call] at h
  split at h
  · rename_i x e4
    have := (printStack_spec _ _ _).2.2 x e4
    simp only [Res.ret.injEq] at h
    exact absurd h.1 this
  · split at h
    · rename_i e5
      have := printf_fail _ _ e5
      simp only [Res.ret.injEq] at h
      exact absurd h.1 this
    · split at h
      · rename_i c
        have := ((chdir_cwd _ _).1 c).2
        simp only [Res.ret.injEq] at h
        exact absurd h.1 this
      · rename_i c
        have hc := (chdir_cwd _ _).2 c
        simp only [Res.ret.injEq, true_and] at h
        rw [← h]
        refine ⟨?_, ?_⟩
        · simp
        · simpa using hc.symm

/-- The redirections of a built-in leave the current directory and the
directory stack alone, and a non-zero result is the `errno` they leave. -/
theorem redirect_stdin_builtin_spec (c : CMD) (s : State) (x : Int) (s1 : State)
    (h : redirect_stdin_builtin c s = Res.ret x s1) :
    s1.cwd = s.cwd ∧ s1.head = s.head ∧ (x ≠ 0 → s1.errno = x) := by
  cases c with
  | null => simp [redirect_stdin_builtin] at h
  | node ty f l r =>
    unfold redirect_stdin_builtin at h
    simp only [call] at h
    repeat (any_goals (split at h))
    all_goals
      simp only [Res.ret.injEq] at h
      obtain ⟨h1, h2⟩ := h
      subst h1 h2
      simp

theorem redirect_stdout_builtin_spec (c : CMD) (s : State) (x : Int) (s1 : State)
    (h : redirect_stdout_builtin c s = Res.ret x s1) :
    s1.cwd = s.cwd ∧ s1.head = s.head ∧ (x ≠ 0 → s1.errno = x) := by
  cases c with
  | null => simp [redirect_stdout_builtin] at h
  | node ty f l r =>
    unfold redirect_stdout_builtin at h
    simp only [call] at h
    repeat (any_goals (split at h))
    all_goals
      simp only [Res.ret.injEq] at h
      obtain ⟨h1, h2⟩ := h
      subst h1 h2
      simp

/-- A successful `pushd P` is a successful `pushd_command` run from a state with
the current directory and the stack of the start. -/
theorem built_in_pushd_ok (ty : CmdType) (f : Fields) (l r : CMD) (P : String) (s s1 : State)
    (hf : f.argv = ["pushd", P])
    (h : built_in_command (CMD.node ty f l r) s = Res.ret 0 s1) :
    ∃ s0, s0.cwd = s.cwd ∧ s0.head = s.head ∧
      pushd_command (CMD.node ty f l r) s0 = Res.ret 0 s1 := by
  rw [built_in_command] at h
  cases hin : redirect_stdin_builtin (CMD.node ty f l r) (setLocals f.locals s) with
  | ret x sa =>
    obtain ⟨a1, a2, a3⟩ := redirect_stdin_builtin_spec _ _ _ _ hin
    rw [hin] at h
    simp only [Res.bind] at h
    by_cases hx : x = 0
    · simp only [hx, ne_eq, not_true_eq_false, if_false] at h
      cases hout : redirect_stdout_builtin (CMD.node ty f l r) sa with
      | ret y sb =>
        obtain ⟨b1, b2, b3⟩ := redirect_stdout_builtin_spec _ _ _ _ hout
        rw [hout] at h
        simp only [Res.bind] at h
        by_cases hy : y < 0
        · simp only [hy, if_true, Res.ret.injEq] at h
          have : sb.errno = y := b3 (by omega)
          omega
        · simp only [hy, if_false, hf, Fields.argc] at h
          simp at h
          refine ⟨sb, ?_, ?_, h⟩
          · simp [b1, a1]
          · simp [b2, a2]
      | exited c sb => rw [hout] at h; simp [Res.bind] at h
      | execd c sb => rw [hout] at h; simp [Res.bind] at h
      | fault sb => rw [hout] at h; simp [Res.bind] at h
    · simp only [ne_eq, hx, not_false_eq_true, if_true, Res.ret.injEq] at h
      have := a3 hx
      omega
  | exited c sb => rw [hin] at h; simp [Res.bind] at h
  | execd c sb => rw [hin] at h; simp [Res.bind] at h
  | fault sb => rw [hin] at h; simp [Res.bind] at h

/-- A successful `popd` is a successful `popd_command` run from a state with the
current directory and the stack of the start. -/
theorem built_in_popd_ok (ty : CmdType) (f : Fields) (l r : CMD) (s s1 : State)
    (hf : f.argv = ["popd"])
    (h : built_in_command (CMD.node ty f l r) s = Res.ret 0 s1) :
    ∃ s0, s0.cwd = s.cwd ∧ s0.head = s.head ∧
      popd_command (CMD.node ty f l r) s0 = Res.ret 0 s1 := by
  rw [built_in_command] at h
  cases hin : redirect_stdin_builtin (CMD.node ty f l r) (setLocals f.locals s) with
  | ret x sa =>
    obtain ⟨a1, a2, a3⟩ := redirect_stdin_builtin_spec _ _ _ _ hin
    rw [hin] at h
    simp only [Res.bind] at h
    by_cases hx : x = 0
    · simp only [hx, ne_eq, not_true_eq_false, if_false] at h
      cases hout : redirect_stdout_builtin (CMD.node ty f l r) sa with
      | ret y sb =>
        obtain ⟨b1, b2, b3⟩ := redirect_stdout_builtin_spec _ _ _ _ hout
        rw [hout] at h
        simp only [Res.bind] at h
        by_cases hy : y < 0
        · simp only [hy, if_true, Res.ret.injEq] at h
          have : sb.errno = y := b3 (by omega)
          omega
        · simp only [hy, if_false, hf, Fields.argc] at h
          simp at h
          refine ⟨sb, ?_, ?_, h⟩
          · simp [b1, a1]
          · simp [b2, a2]
      | exited c sb => rw [hout] at h; simp [Res.bind] at h
      | execd c sb => rw [hout] at h; simp [Res.bind] at h
      | fault sb => rw [hout] at h; simp [Res.bind] at h
    · simp only [ne_eq, hx, not_false_eq_true, if_true, Res.ret.injEq] at h
      have := a3 hx
      omega
  | exited c sb => rw [hin] at h; simp [Res.bind] at h
  | execd c sb => rw [hin] at h; simp [Res.bind] at h
  | fault sb => rw [hin] at h; simp [Res.bind] at h

/-- C5 (directory-stack law): when the built-in `pushd P` succeeds and the
built-in `popd` run right after it succeeds too, the current directory and the
directory stack are what they were before the `pushd`; in particular an empty
stack is empty again. -/
theorem pushd_popd_restores (ty : CmdType) (f : Fields) (l r : CMD)
    (ty2 : CmdType) (f2 : Fields) (l2 r2 : CMD) (P : String) (s s1 s2 : State)
    (hpushd : f.argv = ["pushd", P]) (hpopd : f2.argv = ["popd"])
    (h1 : built_in_command (CMD.node ty f l r) s = Res.ret 0 s1)
    (h2 : built_in_command (CMD.node ty2 f2 l2 r2) s1 = Res.ret 0 s2) :
    s2.cwd = s.cwd ∧ s2.head = s.head ∧ (s.head = [] → s2.head = []) := by
  obtain ⟨sa, a1, a2, ha⟩ := built_in_pushd_ok ty f l r P s s1 hpushd h1
  have hpush := pushd_command_ok ty f l r sa s1 ha
  obtain ⟨sb, b1, b2, hb⟩ := built_in_popd_ok ty2 f2 l2 r2 s1 s2 hpopd h2
  have hpop := popd_command_ok _ sb s2 sa.cwd sa.head (by rw [b2, hpush]) hb
  rw [a1, a2] at hpop
  exact ⟨hpop.2, hpop.1, fun h => by rw [hpop.1, h]⟩

/-- C5 at `pushd /tmp` then `popd`, from `/home/u` with `/var` on the stack. -/
theorem pushd_popd_restores_witness :
    built_in_command pushdTmp home = Res.ret 0 (built_in_command pushdTmp home).state ∧
    built_in_command popdNode (built_in_command pushdTmp home).state =
      Res.ret 0 (built_in_command popdNode (built_in_command pushdTmp home).state).state ∧
    (built_in_command popdNode (built_in_command pushdTmp home).state).state.cwd = home.cwd ∧
    (built_in_command popdNode (built_in_command pushdTmp home).state).state.head = home.head ∧
    (home.head = [] →
      (built_in_command popdNode (built_in_command pushdTmp home).state).state.head = []) :=
  ⟨by decide, by decide,
   pushd_popd_restores CmdType.SIMPLE { argv := ["pushd", "/tmp"] } CMD.null CMD.null
     CmdType.SIMPLE { argv := ["popd"] } CMD.null CMD.null
     "/tmp" home (built_in_command pushdTmp home).state
     (built_in_command popdNode (built_in_command pushdTmp home).state).state
     rfl rfl (by decide) (by decide)⟩

/-! ## Here-documents -/

/-- The state left by the here-document steps when `mkstemp`, `write` and `open`
succeed and descriptor `0` is open: descriptor `0` is the read-only description
of the reopened temporary file, which holds the body. -/
theorem heredoc_steps (s : State) (body : List Char) (m w o : Reply) (rest : List Reply)
    (old : OpenFile)
    (hos : s.os = m :: w :: o :: rest)
    (hm : m.err = 0) (hfresh : s.files.lookup (tmpName m.val) = none)
    (hw : w.err = 0) (ho : o.err = 0)
    (hin : getFd s.fds 0 = some old) :
    ¬ (mkstemp s).1.1 < 0 ∧
    ¬ (write (mkstemp s).1.1 body (mkstemp s).2).1 < 0 ∧
    ¬ (open_ (mkstemp s).1.2 O_RDONLY
        (close (mkstemp s).1.1 (write (mkstemp s).1.1 body (mkstemp s).2).2)).1 < 0 ∧
    getFd (close (mkstemp s).1.1 (dup2 (mkstemp s).1.1 0
        (open_ (mkstemp s).1.2 O_RDONLY
          (close (mkstemp s).1.1 (write (mkstemp s).1.1 body (mkstemp s).2).2)).2)).fds 0 =
      some ⟨s.nextId + 1, Obj.file (tmpName m.val), true, false, false, 0⟩ ∧
    fileContent (close (mkstemp s).1.1 (dup2 (mkstemp s).1.1 0
        (open_ (mkstemp s).1.2 O_RDONLY
          (close (mkstemp s).1.1 (write (mkstemp s).1.1 body (mkstemp s).2).2)).2))
      (tmpName m.val) = body := by
  have hn : 0 < lowestFree s.fds := lowestFree_pos _ _ hin
  obtain ⟨M1, M2, M3, M4, M5⟩ := mkstemp_ok s m _ hos hm hfresh
  rw [M1]
  simp only []
  generalize (mkstemp s).2 = sA at *
  generalize hname : tmpName m.val = name at *
  generalize hnn : lowestFree s.fds = n at *
  have hA : getFd sA.fds n = some ⟨s.nextId, Obj.file name, true, true, false, 0⟩ := by
    rw [M3, getFd_setFd_same]
  obtain ⟨W1, W2, W3, W4, W5⟩ := write_ok sA w _ n _ name body M2 hw hA rfl rfl rfl
  have hcA : fileContent sA name = [] := by simp [fileContent, M5]
  rw [hcA] at W5
  simp only [List.take_nil, List.nil_append, List.drop_nil, List.append_nil] at W5
  generalize write n body sA = W at *
  obtain ⟨eB, hB⟩ : ∃ e, getFd W.2.fds n = some e := by
    have := getFd_advance s.nextId (0 + body.length - 0) sA.fds n
    rw [← W3, hA] at this
    exact Option.isSome_iff_exists.mp this
  have C1 := close_open_fd n W.2 eB hB
  have C2 : (close n W.2).os = o :: rest := by rw [close_os]; exact W2
  have C3 : (close n W.2).nextId = s.nextId + 1 := by rw [close_nextId, W4, M4]
  have C4 : (close n W.2).files = W.2.files := close_files _ _
  have C5 : lowestFree (close n W.2).fds = n := by
    apply lowestFree_eq
    · rw [C1, getFd_setFd_same]
    · intro k hk
      rw [C1, getFd_setFd_ne _ _ _ _ (by omega), W3, getFd_advance, M3,
        getFd_setFd_ne _ _ _ _ (by omega)]
      exact getFd_below_lowestFree _ _ (by omega)
  generalize close n W.2 = sC at *
  obtain ⟨O1, O2, O3, O4⟩ := open_ok sC o rest name O_RDONLY C2 ho rfl rfl
  rw [C5, C3] at O3
  rw [C5] at O1
  generalize open_ name O_RDONLY sC = O at *
  have hD : getFd O.2.fds n = some ⟨s.nextId + 1, Obj.file name, true, false, false, 0⟩ := by
    rw [O3, getFd_setFd_same]; rfl
  have E1 := dup2_open_fd n 0 O.2 _ hD (by omega)
  have E2 : (dup2 n 0 O.2).files = O.2.files := dup2_files _ _ _
  generalize dup2 n 0 O.2 = sE at *
  have hE : getFd sE.fds n = some ⟨s.nextId + 1, Obj.file name, true, false, false, 0⟩ := by
    rw [E1, getFd_setFd_ne _ _ _ _ (by omega)]; exact hD
  have F1 := close_open_fd n sE _ hE
  refine ⟨by omega, by omega, by omega, ?_, ?_⟩
  · rw [F1, getFd_setFd_ne _ _ _ _ (by omega), E1, getFd_setFd_same]
  · simp [fileContent, E2, O4, C4, W5]

/-- The redirection `<` is installed in the same way and behaves alike when
descriptor `0` is closed: `open` returns `0`, `dup2(0, 0)` changes nothing and
the `close` that follows leaves descriptor `0` closed. -/
theorem redirect_in_closed_stdin :
    redirect_stdin catIn noStdin = Res.ret () (redirect_stdin catIn noStdin).state ∧
    redirect_stdin_builtin catIn noStdin =
      Res.ret 0 (redirect_stdin catIn noStdin).state ∧
    getFd (redirect_stdin catIn noStdin).state.fds 0 = none := by
  decide

/-! ## Background commands -/

/-- C7, the failing input: a `Bg` node without right child whose left child is
launched successfully (`background_command_helper` returns `0`) returns the value
found in the unassigned `right_status`, here `7`. -/
theorem background_absent_right :
    background_command_helper sleepNode parentJunk7 =
      Res.ret 0 (background_command_helper sleepNode parentJunk7).state ∧
    background_command bgSleep parentJunk7 =
      Res.ret 7 (background_command bgSleep parentJunk7).state := by
  unfold bgSleep sleepNode
  simp only [background_command, background_command_helper]
  decide

/-- In the shell, `background_command_helper` on a node that is neither `&` nor
`;` returns after its `fork`, whether the launch succeeded or not, with the
current directory and the directory stack as they were. -/
theorem helper_parent_frame (bt : CmdType) (bf : Fields) (bl br : CMD) (s : State)
    (hb1 : bt ≠ CmdType.SEP_BG) (hb2 : bt ≠ CmdType.SEP_END) (h0 : (fork s).1 ≠ 0) :
    ∃ a s1, background_command_helper (CMD.node bt bf bl br) s = Res.ret a s1 ∧
      s1.cwd = s.cwd ∧ s1.head = s.head ∧ (Call.fork, s.os.headD {}) ∈ s1.trace := by
  rw [background_command_helper]
  simp only [hb1, hb2, if_false, call, h0]
  by_cases hneg : (fork s).1 < 0
  · simp only [hneg, if_true]
    rw [env_variable_minus_one _ _ (fork_neg s hneg)]
    exact ⟨_, _, rfl, by simp, by simp, by simp⟩
  · simp only [hneg, if_false]
    by_cases hf : (fprintf ("Backgrounded: " ++ toString (fork s).1 ++ "\n") (fork s).2).1 < 0
    · simp only [hf, if_true]
      rw [env_variable_minus_one _ _ (fprintf_neg _ _ hf)]
      exact ⟨_, _, rfl, by simp, by simp, by simp⟩
    · simp only [hf, if_false]
      exact ⟨_, _, rfl, by simp, by simp, by simp⟩

/-- C8, amended: a `Bg` node whose left child is a `Simple` node (a built-in
`cd`, `pushd`, `popd` like any other command) forks for the left child,
whatever its right child.  In the child (`fork` returns `0`) the command is
evaluated by `process` and the child exits with its status.  In the shell
itself (`fork` returns the pid, or fails) the backgrounding step returns with
the current directory and the directory stack unchanged; then, when the right
child is absent, the evaluation returns in such a state, and when it exists it
is evaluated from the state the backgrounding step left. -/
theorem background_builtin_forks (ty : CmdType) (f lf : Fields) (ll lr R : CMD) (s : State) :
    ((fork s).1 = 0 →
      background_command (CMD.node ty f (CMD.node CmdType.SIMPLE lf ll lr) R) s =
        (process (CMD.node CmdType.SIMPLE lf ll lr) (fork s).2).bind
          fun v s1 => Res.exited v s1) ∧
    ((fork s).1 ≠ 0 →
      ∃ a s1,
        background_command_helper (CMD.node CmdType.SIMPLE lf ll lr) s = Res.ret a s1 ∧
        s1.cwd = s.cwd ∧ s1.head = s.head ∧ (Call.fork, s.os.headD {}) ∈ s1.trace ∧
        (R = CMD.null →
          ∃ v s2,
            background_command (CMD.node ty f (CMD.node CmdType.SIMPLE lf ll lr) R) s =
              Res.ret v s2 ∧
            s2.cwd = s.cwd ∧ s2.head = s.head ∧ (Call.fork, s.os.headD {}) ∈ s2.trace) ∧
        (R ≠ CMD.null →
          background_command (CMD.node ty f (CMD.node CmdType.SIMPLE lf ll lr) R) s =
            (process R s1).bind fun rs s2 => Res.ret (if a ≠ 0 then a else rs) s2)) := by
  constructor
  · intro h0
    rw [background_command]
    simp only [reduceCtorEq, if_false, ret_bind]
    rw [background_command_helper]
    simp only [reduceCtorEq, if_false, call, h0, lt_self_iff_false, if_true]
    cases process (CMD.node CmdType.SIMPLE lf ll lr) (fork s).2 <;> rfl
  · intro h0
    obtain ⟨a, s1, hl, hc, hh, hm⟩ :=
      helper_parent_frame CmdType.SIMPLE lf ll lr s (by decide) (by decide) h0
    refine ⟨a, s1, hl, hc, hh, hm, ?_, ?_⟩
    · intro hR
      rw [background_command]
      simp only [reduceCtorEq, if_false, ret_bind, hl, hR, ne_eq, not_true_eq_false, call]
      repeat (any_goals split)
      all_goals exact ⟨_, _, rfl, by simp [hc], by simp [hh], by rw [readLocal_trace]; exact hm⟩
    · intro hR
      rw [background_command]
      simp only [reduceCtorEq, if_false, ret_bind, hl, hR, ne_eq, not_false_eq_true, if_true]
      cases process R s1 with
      | ret v s3 =>
        simp only [Res.bind, call, readLocal]
        by_cases hv : v = 0 <;> by_cases ha : a = 0 <;> simp [hv, ha]
      | exited c s3 => rfl
      | execd c s3 => rfl
      | fault s3 => rfl

/-- C8, amended, at `cd /tmp &` and at `cd /tmp & echo done` in the shell, where
`fork` returns pid `100`. -/
theorem background_builtin_forks_witness :
    (fork (reap parent100).state).1 ≠ 0 ∧
    (∃ v s2,
      background_command bgCdTmp (reap parent100).state = Res.ret v s2 ∧
      s2.cwd = (reap parent100).state.cwd ∧ s2.head = (reap parent100).state.head ∧
      (Call.fork, (reap parent100).state.os.headD {}) ∈ s2.trace) ∧
    (∃ a s1,
      background_command_helper cdTmp (reap parent100).state = Res.ret a s1 ∧
      s1.cwd = (reap parent100).state.cwd ∧ s1.head = (reap parent100).state.head ∧
      (Call.fork, (reap parent100).state.os.headD {}) ∈ s1.trace ∧
      background_command bgCdEcho (reap parent100).state =
        (process echoDone s1).bind fun rs s2 => Res.ret (if a ≠ 0 then a else rs) s2) := by
  obtain ⟨_, _, _, _, _, _, h5, -⟩ :=
    (background_builtin_forks CmdType.SEP_BG {} { argv := ["cd", "/tmp"] } CMD.null CMD.null
      CMD.null (reap parent100).state).2 (by decide)
  obtain ⟨b, t1, k1, k2, k3, k4, -, k6⟩ :=
    (background_builtin_forks CmdType.SEP_BG {} { argv := ["cd", "/tmp"] } CMD.null CMD.null
      echoDone (reap parent100).state).2 (by decide)
  exact ⟨by decide, h5 rfl, ⟨b, t1, k1, k2, k3, k4, k6 (by decide)⟩⟩

/-- C8, counterexample: evaluating `cd /tmp &` in `/home/u` returns with the
shell still in `/home/u`, after a `fork`. -/
theorem background_cd_keeps_cwd :
    process bgCdTmp parent100 = Res.ret 0 (process bgCdTmp parent100).state ∧
    (process bgCdTmp parent100).state.cwd = "/home/u" ∧
    (process bgCdTmp parent100).state.cwd ≠ "/tmp" ∧
    (Call.fork, { val := 100 }) ∈ (process bgCdTmp parent100).state.trace := by
  unfold bgCdTmp cdTmp
  simp only [process, background_command, background_command_helper]
  decide

/-! ## The status of the built-ins -/

/-- C9, the failing input: `popd` on an empty directory stack with `errno = 0`
returns `0`, from `built_in_command` and so from `process`, which publishes
`0` in `?`. -/
theorem popd_empty_stack_status :
    freshShell.head = [] ∧ freshShell.errno = 0 ∧
    built_in_command popdNode freshShell = Res.ret 0 (perror "Stack empty" freshShell) ∧
    process popdNode freshShell = Res.ret 0 (process popdNode freshShell).state ∧
    getenv "?" (process popdNode freshShell).state = some "0" := by
  refine ⟨by decide, by decide, by decide, ?_⟩
  unfold popdNode
  simp only [process]
  decide

/-- C10, the failing input: when the `open` of the output redirection of
`cd /tmp > /nodir/out` fails, `built_in_command` still changes the directory and
returns `0`; when the `open` of an input redirection fails it returns the error
number and the directory is unchanged. -/
theorem builtin_output_redirect_failure :
    redirect_stdout_builtin cdTmpOut openFails =
      Res.ret 2 (redirect_stdout_builtin cdTmpOut openFails).state ∧
    built_in_command cdTmpOut openFails =
      Res.ret 0 (built_in_command cdTmpOut openFails).state ∧
    (built_in_command cdTmpOut openFails).state.cwd = "/tmp" ∧
    built_in_command cdTmpIn openFails =
      Res.ret 2 (built_in_command cdTmpIn openFails).state ∧
    (built_in_command cdTmpIn openFails).state.cwd = "/home/u" := by
  decide

/-! ## The descriptors of a pipeline -/

@[simp] theorem setErrno_fds (e : Nat) (s : State) : (setErrno e s).fds = s.fds := rfl

@[simp] theorem perror_fds (m : String) (s : State) : (perror m s).fds = s.fds := rfl

@[simp] theorem uninit_fds (s : State) : (uninit s).2.fds = s.fds := rfl

@[simp] theorem fork_fds (s : State) : (fork s).2.fds = s.fds := by
  unfold fork; simp only []; split <;> simp

@[simp] theorem signal_fds (b : Bool) (s : State) : (signal b s).2.fds = s.fds := by
  unfold signal; simp only []; split <;> simp

@[simp] theorem waitpid_fds (p : Int) (s : State) : (waitpid p s).2.fds = s.fds := by
  unfold waitpid; simp only []; split <;> simp

/-- A successful `pipe`: the two ends are put on two descriptors that were
closed, and the other descriptors are left as they were. -/
theorem pipe_fds (s : State) (r : Reply) (rest : List Reply) (h : s.os = r :: rest)
    (he : r.err = 0) :
    ∃ (a b : Nat) (rd wr : OpenFile),
      (pipe s).1 = (0, (a : Int), (b : Int)) ∧ a ≠ b ∧
      getFd s.fds a = none ∧ getFd s.fds b = none ∧
      rd.obj = Obj.pipeRead s.nextId ∧ wr.obj = Obj.pipeWrite s.nextId ∧
      (pipe s).2.fds = setFd (setFd s.fds a (some rd)) b (some wr) ∧
      (pipe s).2.os = rest := by
  have hr := sys_reply Call.pipe s r rest h
  refine ⟨lowestFree s.fds,
    lowestFree (setFd s.fds (lowestFree s.fds)
      (some { id := s.nextId, obj := Obj.pipeRead s.nextId, readable := true,
              writable := false, append := false, offset := 0 })),
    { id := s.nextId, obj := Obj.pipeRead s.nextId, readable := true,
      writable := false, append := false, offset := 0 },
    { id := s.nextId + 1, obj := Obj.pipeWrite s.nextId, readable := false,
      writable := true, append := false, offset := 0 }, ?_, ?_, ?_, ?_, rfl, rfl, ?_, ?_⟩
  · unfold pipe
    simp only [hr.1, he]
    simp [install]
  · intro hab
    have h1 := getFd_lowestFree (setFd s.fds (lowestFree s.fds)
      (some { id := s.nextId, obj := Obj.pipeRead s.nextId, readable := true,
              writable := false, append := false, offset := 0 }))
    rw [← hab, getFd_setFd_same] at h1
    simp at h1
  · exact getFd_lowestFree _
  · have h1 := getFd_lowestFree (setFd s.fds (lowestFree s.fds)
      (some { id := s.nextId, obj := Obj.pipeRead s.nextId, readable := true,
              writable := false, append := false, offset := 0 }))
    by_cases hab : lowestFree (setFd s.fds (lowestFree s.fds)
      (some { id := s.nextId, obj := Obj.pipeRead s.nextId, readable := true,
              writable := false, append := false, offset := 0 })) = lowestFree s.fds
    · rw [hab]; exact getFd_lowestFree _
    · rw [getFd_setFd_ne _ _ _ _ hab] at h1
      exact h1
  · unfold pipe
    simp only [hr.1, he]
    simp [install]
  · unfold pipe
    simp only [hr.1, he]
    simp [install, h]

theorem close_two_fds (s0 s : State) (a b : Nat) (rd wr : OpenFile) (hab : a ≠ b)
    (ha : getFd s0.fds a = none) (hb : getFd s0.fds b = none)
    (hs : s.fds = setFd (setFd s0.fds a (some rd)) b (some wr)) (n : Nat) :
    getFd (close (b : Int) (close (a : Int) s)).fds n = getFd s0.fds n := by
  have h1 : getFd s.fds a = some rd := by
    rw [hs, getFd_setFd_ne _ _ _ _ hab, getFd_setFd_same]
  have h2 : (close (a : Int) s).fds = setFd s.fds a none := close_open_fd a s rd h1
  have h3 : getFd (close (a : Int) s).fds b = some wr := by
    rw [h2, getFd_setFd_ne _ _ _ _ (Ne.symm hab), hs, getFd_setFd_same]
  rw [close_open_fd b _ wr h3, h2, hs]
  by_cases hnb : n = b
  · rw [hnb, getFd_setFd_same, hb]
  · rw [getFd_setFd_ne _ _ _ _ hnb]
    by_cases hna : n = a
    · rw [hna, getFd_setFd_same, ha]
    · rw [getFd_setFd_ne _ _ _ _ hna, getFd_setFd_ne _ _ _ _ hnb, getFd_setFd_ne _ _ _ _ hna]

/-- The paths of `pipe_command` that go past both forks (the return after a
failed `signal` and the normal completion) close both pipe ends: on return
every descriptor refers to what it referred to on entry. -/
theorem pipe_command_closes (ty : CmdType) (f : Fields) (left right : CMD) (s : State)
    (rp rl rr : Reply) (rest : List Reply)
    (hos : s.os = rp :: rl :: rr :: rest)
    (hp : rp.err = 0) (hl : rl.err = 0) (hlp : 0 < rl.val)
    (hr : rr.err = 0) (hrp : 0 < rr.val) (n : Nat) :
    (∃ v, pipe_command (CMD.node ty f left right) s =
      Res.ret v (pipe_command (CMD.node ty f left right) s).state) ∧
    getFd (pipe_command (CMD.node ty f left right) s).state.fds n = getFd s.fds n := by
  have hl0 : ¬ ((rl.val : Int) < 0) := by omega
  have hl1 : ¬ ((rl.val : Int) = 0) := by omega
  have hr0 : ¬ ((rr.val : Int) < 0) := by omega
  have hr1 : ¬ ((rr.val : Int) = 0) := by omega
  rw [pipe_command]
  simp only [call]
  obtain ⟨a, b, rd, wr, p1, hab, ha, hb, -, -, pf, p2⟩ := pipe_fds s rp _ hos hp
  generalize pipe s = ps at *
  obtain ⟨f1, f2⟩ := fork_ok _ rl _ p2 hl
  have ff : (fork ps.2).2.fds = ps.2.fds := fork_fds _
  generalize fork ps.2 = fs at *
  obtain ⟨k1, k2⟩ := fork_ok _ rr _ f2 hr
  have kf : (fork fs.2).2.fds = fs.2.fds := fork_fds _
  generalize fork fs.2 = ks at *
  have c2 : ∀ n, getFd (close ps.1.2.2 (close ps.1.2.1 ks.2)).fds n = getFd s.fds n := by
    intro n
    rw [p1]
    exact close_two_fds s ks.2 a b rd wr hab ha hb (by rw [kf, ff, pf]) n
  generalize close ps.1.2.2 (close ps.1.2.1 ks.2) = cs at *
  simp only [p1, f1, k1, hl0, hl1, hr0, hr1, lt_self_iff_false, if_false]
  constructor
  · repeat (any_goals split)
    all_goals exact ⟨_, rfl⟩
  · repeat (any_goals split)
    all_goals simp [Res.state, c2]

/-- C11, the failing input: when the first `fork` of `pipe_command` fails, or
the second one, the function returns the error number (`11`) with both ends of
the pipe still open on descriptors `3` and `4`, which were closed on entry; on
normal completion both are closed again. -/
theorem pipe_fork_failure_leaks :
    getFd leftForkFails.fds 3 = none ∧ getFd leftForkFails.fds 4 = none ∧
    pipe_command pipeNode leftForkFails =
      Res.ret 11 (pipe_command pipeNode leftForkFails).state ∧
    (getFd (pipe_command pipeNode leftForkFails).state.fds 3).map OpenFile.obj =
      some (Obj.pipeRead 1) ∧
    (getFd (pipe_command pipeNode leftForkFails).state.fds 4).map OpenFile.obj =
      some (Obj.pipeWrite 1) ∧
    pipe_command pipeNode rightForkFails =
      Res.ret 11 (pipe_command pipeNode rightForkFails).state ∧
    (getFd (pipe_command pipeNode rightForkFails).state.fds 3).map OpenFile.obj =
      some (Obj.pipeRead 1) ∧
    (getFd (pipe_command pipeNode rightForkFails).state.fds 4).map OpenFile.obj =
      some (Obj.pipeWrite 1) ∧
    pipe_command pipeNode pipeParent = Res.ret 1 (pipe_command pipeNode pipeParent).state ∧
    getFd (pipe_command pipeNode pipeParent).state.fds 3 = none ∧
    getFd (pipe_command pipeNode pipeParent).state.fds 4 = none := by
  unfold pipeNode
  simp only [pipe_command]
  decide

/-! ## The built-in `cd` -/

@[simp] theorem setLocals_os (l : List (String × String)) (s : State) :
    (setLocals l s).os = s.os := by
  induction l generalizing s with
  | nil => rfl
  | cons p t ih =>
    obtain ⟨k, v⟩ := p
    simp only [setLocals]
    rw [ih]
    rfl

/-- A `chdir` to a named directory that the kernel lets succeed. -/
theorem chdir_ok (d : String) (s : State) (h : (s.os.headD {}).err = 0) :
    (chdir (some d) s).1 = 0 ∧ (chdir (some d) s).2.cwd = d ∧
    (chdir (some d) s).2.head = s.head := by
  unfold chdir
  simp only [sys_fst, h]
  simp

/-- C12 (cd argument handling): for a `cd` node without redirection, with no
argument and `HOME` set the current directory becomes the value of `HOME`, with
one argument it becomes that argument, the status being `0` in both cases, when
the kernel lets `chdir` succeed; with two arguments or more the status is `1`
and the current directory and the directory stack are unchanged.  `HOME` is
read after the local bindings of the node are put in the environment. -/
theorem cd_arguments (ty : CmdType) (f : Fields) (l r : CMD) (s : State) (args : List String)
    (hf : f.argv = "cd" :: args)
    (hin : f.fromType = RedType.NONE) (hout : f.toType = RedType.NONE) :
    (∀ h, args = [] → getenv "HOME" (setLocals f.locals s) = some h →
      (s.os.headD {}).err = 0 →
      ∃ s1, built_in_command (CMD.node ty f l r) s = Res.ret 0 s1 ∧
        s1.cwd = h ∧ s1.head = s.head) ∧
    (∀ d, args = [d] → (s.os.headD {}).err = 0 →
      ∃ s1, built_in_command (CMD.node ty f l r) s = Res.ret 0 s1 ∧
        s1.cwd = d ∧ s1.head = s.head) ∧
    (2 ≤ args.length →
      ∃ s1, built_in_command (CMD.node ty f l r) s = Res.ret 1 s1 ∧
        s1.cwd = s.cwd ∧ s1.head = s.head) := by
  have hb : built_in_command (CMD.node ty f l r) s =
      (if f.argc > 2 then Res.ret 1 (perror "Too many arguments" (setLocals f.locals s))
       else if f.argc = 1 then
         call (chdir (getenv "HOME" (setLocals f.locals s)) (setLocals f.locals s)) fun c s =>
         if c < 0 then Res.ret s.errno (perror "chdir() error" s) else Res.ret 0 s
       else if f.argc = 2 then
         call (chdir (f.argv.get? 1) (setLocals f.locals s)) fun c s =>
         if c < 0 then Res.ret s.errno (perror "chdir() error" s) else Res.ret 0 s
       else Res.ret 0 (setLocals f.locals s)) := by
    rw [built_in_command]
    simp only [redirect_stdin_builtin, redirect_stdout_builtin, hin, hout, Res.bind, hf]
    simp
  have hargc : f.argc = (args.length : Int) + 1 := by
    simp [Fields.argc, hf]
  refine ⟨?_, ?_, ?_⟩
  · intro h ha hh hr
    subst ha
    have hos : ((setLocals f.locals s).os.headD {}).err = 0 := by rw [setLocals_os]; exact hr
    obtain ⟨c1, c2, c3⟩ := chdir_ok h (setLocals f.locals s) hos
    rw [hb, hh]
    simp only [hargc, call, c1]
    simp [c2, c3]
  · intro d ha hr
    subst ha
    have hos : ((setLocals f.locals s).os.headD {}).err = 0 := by rw [setLocals_os]; exact hr
    obtain ⟨c1, c2, c3⟩ := chdir_ok d (setLocals f.locals s) hos
    rw [hb]
    simp only [hargc, call, hf]
    simp [c1, c2, c3]
  · intro h2
    rw [hb]
    have : f.argc > 2 := by omega
    simp [this]

/-- C12 at `cd`, `cd /tmp` and `cd /tmp /var` run in `/srv` with
`HOME=/home/u`; the first also through `process`. -/
theorem cd_arguments_witness :
    (∃ s1, built_in_command cdHome away = Res.ret 0 s1 ∧
      s1.cwd = "/home/u" ∧ s1.head = away.head) ∧
    (∃ s1, built_in_command cdTmp away = Res.ret 0 s1 ∧
      s1.cwd = "/tmp" ∧ s1.head = away.head) ∧
    (∃ s1, built_in_command cdTwo away = Res.ret 1 s1 ∧
      s1.cwd = away.cwd ∧ s1.head = away.head) ∧
    process cdHome away = Res.ret 0 (process cdHome away).state ∧
    (process cdHome away).state.cwd = "/home/u" :=
  ⟨(cd_arguments CmdType.SIMPLE _ CMD.null CMD.null away [] rfl rfl rfl).1
      "/home/u" rfl (by decide) (by decide),
   (cd_arguments CmdType.SIMPLE _ CMD.null CMD.null away ["/tmp"] rfl rfl rfl).2.1
      "/tmp" rfl (by decide),
   (cd_arguments CmdType.SIMPLE _ CMD.null CMD.null away ["/tmp", "/var"] rfl rfl rfl).2.2
      (by decide),
   by
    unfold cdHome
    simp only [process]
    decide⟩

/-! ## The operator `;` -/

/-- C13 (Seq semantics): `end_command` evaluates the left child `A` first.  When
`A` returns and the right child `B` exists, `B` is evaluated from the state `A`
left and its result is the result, whatever the status of `A`; when `B` is
absent the status of `A` is returned in the very state `A` left.  `B` is
evaluated, adding its calls to the record, if and only if it exists. -/
theorem seq_semantics (ty : CmdType) (f : Fields) (A B : CMD) (s : State) :
    end_command (CMD.node ty f A B) s =
      (match process A s with
       | Res.ret a s1 => if B = CMD.null then Res.ret a s1 else process B s1
       | Res.exited c s1 => Res.exited c s1
       | Res.execd v s1 => Res.execd v s1
       | Res.fault s1 => Res.fault s1) ∧
    ∀ a s1, process A s = Res.ret a s1 →
      (B = CMD.null → end_command (CMD.node ty f A B) s = Res.ret a s1) ∧
      (B ≠ CMD.null → end_command (CMD.node ty f A B) s = process B s1) ∧
      (B ≠ CMD.null ↔
        s1.trace.length < (end_command (CMD.node ty f A B) s).state.trace.length) := by
  have heq : end_command (CMD.node ty f A B) s =
      (match process A s with
       | Res.ret a s1 => if B = CMD.null then Res.ret a s1 else process B s1
       | Res.exited c s1 => Res.exited c s1
       | Res.execd v s1 => Res.execd v s1
       | Res.fault s1 => Res.fault s1) := by
    rw [end_command]
    cases hA : process A s with
    | ret a s1 =>
      simp only [Res.bind]
      by_cases hB : B = CMD.null <;> simp [hB]
    | exited c s1 => rfl
    | execd v s1 => rfl
    | fault s1 => rfl
  refine ⟨heq, ?_⟩
  intro a s1 hA
  rw [heq, hA]
  by_cases hB : B = CMD.null
  · simp [hB, Res.state]
  · simp only [hB, if_false, ne_eq, not_false_eq_true, true_iff, forall_true_left,
      false_implies, true_and]
    exact process_tlen B s1

/-- C13 at `false ; cd /tmp` and at `false ;`: the left child returns `1`; with
the right child the status is the `0` of `cd /tmp`, without it the status is
`1`. -/
theorem seq_semantics_witness :
    process falseNode childFails = Res.ret 1 (process falseNode childFails).state ∧
    end_command seqFalseCd childFails = process cdTmp (process falseNode childFails).state ∧
    process cdTmp (process falseNode childFails).state =
      Res.ret 0 (process cdTmp (process falseNode childFails).state).state ∧
    end_command seqFalse childFails = Res.ret 1 (process falseNode childFails).state :=
  have h : process falseNode childFails =
      Res.ret 1 (process falseNode childFails).state := by
    unfold falseNode
    simp only [process]
    decide
  ⟨h,
   ((seq_semantics CmdType.SEP_END {} falseNode cdTmp childFails).2 1 _ h).2.1 (by decide),
   by
    unfold cdTmp falseNode
    simp only [process]
    decide,
   ((seq_semantics CmdType.SEP_END {} falseNode CMD.null childFails).2 1 _ h).1 rfl⟩

/-! ## The walk of a background subtree -/

theorem fprintf_ok (t : String) (s : State) (r : Reply) (rest : List Reply)
    (h : s.os = r :: rest) (he : r.err = 0) :
    ¬ (fprintf t s).1 < 0 ∧ (fprintf t s).2.os = rest ∧
    (fprintf t s).2.trace = s.trace ++ [(Call.fprintf t, r)] := by
  have hr := sys_reply (Call.fprintf t) s r rest h
  refine ⟨?_, ?_, ?_⟩
  · unfold fprintf
    simp only [hr.1, he]
    simp
  · simp [h]
  · simp [h]

/-- In the shell, a node that is neither `&` nor `;` is launched by
`background_command_helper` with one `fork` and one `Backgrounded` line, and
nothing else. -/
theorem helper_launches_leaf (bt : CmdType) (bf : Fields) (bl br : CMD) (s : State)
    (r1 r2 : Reply) (rest : List Reply)
    (hb1 : bt ≠ CmdType.SEP_BG) (hb2 : bt ≠ CmdType.SEP_END)
    (hos : s.os = r1 :: r2 :: rest) (h1 : r1.err = 0) (hp : 0 < r1.val) (h2 : r2.err = 0) :
    ∃ s1, background_command_helper (CMD.node bt bf bl br) s = Res.ret 0 s1 ∧
      s1.trace = s.trace ++
        [(Call.fork, r1),
         (Call.fprintf ("Backgrounded: " ++ toString (r1.val : Int) ++ "\n"), r2)] ∧
      s1.os = rest := by
  have hp0 : ¬ ((r1.val : Int) < 0) := by omega
  have hp1 : ¬ ((r1.val : Int) = 0) := by omega
  rw [background_command_helper]
  simp only [hb1, hb2, if_false, call]
  obtain ⟨f1, f2⟩ := fork_ok s r1 _ hos h1
  have ft : (fork s).2.trace = s.trace ++ [(Call.fork, r1)] := by simp [hos]
  generalize fork s = fs at *
  obtain ⟨p1, p2, p3⟩ :=
    fprintf_ok ("Backgrounded: " ++ toString fs.1 ++ "\n") fs.2 r2 rest f2 h2
  simp only [f1, hp0, hp1, if_false] at p1 p2 p3 ⊢
  simp only [p1, if_false]
  exact ⟨_, rfl, by rw [p3, ft]; simp, p2⟩

/-- C14, amended: in the shell (`fork` yields a pid and the `Backgrounded` line
is written), a `&` node whose left child is a leaf (neither `&` nor `;`)
launches that leaf exactly once, with one `fork`, one `Backgrounded` line and
no wait, and then evaluates its right child; a `&` node whose left child is
`A ; B` with `B` a leaf first evaluates `A` by `process`, as a foreground
command, and then launches `B` exactly once in the same way. -/
theorem background_walk (ty : CmdType) (f lf bf : Fields) (bt : CmdType) (A bl br R : CMD)
    (s : State) (hb1 : bt ≠ CmdType.SEP_BG) (hb2 : bt ≠ CmdType.SEP_END) :
    (∀ r1 r2 rest, s.os = r1 :: r2 :: rest → r1.err = 0 → 0 < r1.val → r2.err = 0 →
      ∃ s1,
        s1.trace = s.trace ++
          [(Call.fork, r1),
           (Call.fprintf ("Backgrounded: " ++ toString (r1.val : Int) ++ "\n"), r2)] ∧
        (R ≠ CMD.null →
          background_command (CMD.node ty f (CMD.node bt bf bl br) R) s = process R s1) ∧
        (R = CMD.null →
          ∃ v s2, background_command (CMD.node ty f (CMD.node bt bf bl br) R) s =
            Res.ret v s2 ∧ s2.trace = s1.trace)) ∧
    (∀ a s1 r1 r2 rest, process A s = Res.ret a s1 →
      s1.os = r1 :: r2 :: rest → r1.err = 0 → 0 < r1.val → r2.err = 0 →
      ∃ s2,
        s2.trace = s1.trace ++
          [(Call.fork, r1),
           (Call.fprintf ("Backgrounded: " ++ toString (r1.val : Int) ++ "\n"), r2)] ∧
        (R ≠ CMD.null →
          background_command
              (CMD.node ty f (CMD.node CmdType.SEP_END lf A (CMD.node bt bf bl br)) R) s =
            (process R s2).bind fun rs s3 => Res.ret (if a ≠ 0 then a else rs) s3) ∧
        (R = CMD.null →
          ∃ v s3, background_command
              (CMD.node ty f (CMD.node CmdType.SEP_END lf A (CMD.node bt bf bl br)) R) s =
            Res.ret v s3 ∧ s3.trace = s2.trace)) := by
  constructor
  · intro r1 r2 rest hos h1 hp h2
    obtain ⟨s1, hl, ht, -⟩ := helper_launches_leaf bt bf bl br s r1 r2 rest hb1 hb2 hos h1 hp h2
    refine ⟨s1, ht, ?_, ?_⟩
    · intro hR
      rw [background_command]
      simp only [hb1, hb2, if_false, ret_bind, hl, hR, ne_eq, not_false_eq_true, if_true]
      cases process R s1 with
      | ret v s3 =>
        simp only [Res.bind, call, readLocal]
        by_cases hv : v = 0 <;> simp [hv]
      | exited c s3 => rfl
      | execd c s3 => rfl
      | fault s3 => rfl
    · intro hR
      rw [background_command]
      simp only [hb1, hb2, if_false, hl, hR, ne_eq, not_true_eq_false, Res.bind, call]
      repeat (any_goals split)
      all_goals exact ⟨_, _, rfl, by simp⟩
  · intro a s1 r1 r2 rest hA hos h1 hp h2
    obtain ⟨s2, hl, ht, -⟩ := helper_launches_leaf bt bf bl br s1 r1 r2 rest hb1 hb2 hos h1 hp h2
    refine ⟨s2, ht, ?_, ?_⟩
    · intro hR
      rw [background_command]
      by_cases ha : a = 0
      · simp only [reduceCtorEq, if_false, if_true, ret_bind, hA, hl, hR, ne_eq,
          not_false_eq_true, ha, not_true_eq_false, call, readLocal]
        cases process R s2 with
        | ret v s3 =>
          simp only [Res.bind]
          by_cases hv : v = 0 <;> simp [hv]
        | exited c s3 => rfl
        | execd c s3 => rfl
        | fault s3 => rfl
      · simp only [reduceCtorEq, if_false, if_true, ret_bind, hA, hl, hR, ne_eq,
          not_false_eq_true, ha, call, readLocal]
        cases process R s2 with
        | ret v s3 =>
          simp only [Res.bind]
          by_cases hv : v = 0 <;> simp [hv, ha]
        | exited c s3 => rfl
        | execd c s3 => rfl
        | fault s3 => rfl
    · intro hR
      rw [background_command]
      by_cases ha : a = 0
      · simp only [reduceCtorEq, if_false, if_true, ret_bind, hA, hl, hR, ne_eq,
          not_false_eq_true, ha, not_true_eq_false, call, readLocal]
        repeat (any_goals split)
        all_goals exact ⟨_, _, rfl, by simp⟩
      · simp only [reduceCtorEq, if_false, if_true, ret_bind, hA, hl, hR, ne_eq,
          not_false_eq_true, ha, not_true_eq_false, call, readLocal]
        repeat (any_goals split)
        all_goals exact ⟨_, _, rfl, by simp⟩

/-- C14, amended, at `sleep 2 & echo done` and at
`sleep 1 ; sleep 2 & echo done`: `sleep 2` is launched (pid `11`) without a
wait; before that, in the second tree, `sleep 1` is run by `process`, which
waits for its child (pid `10`). -/
theorem background_walk_witness :
    (∃ s1,
      s1.trace = parent11.trace ++
        [(Call.fork, { val := 11 }), (Call.fprintf "Backgrounded: 11\n", ({} : Reply))] ∧
      background_command bgLeaf parent11 = process echoDone s1) ∧
    process sleepNode (reap parentSeq).state =
      Res.ret 0 (process sleepNode (reap parentSeq).state).state ∧
    (Call.waitpid 10, { status := 0 }) ∈
      (process sleepNode (reap parentSeq).state).state.trace ∧
    (∃ s2,
      s2.trace = (process sleepNode (reap parentSeq).state).state.trace ++
        [(Call.fork, { val := 11 }), (Call.fprintf "Backgrounded: 11\n", ({} : Reply))] ∧
      background_command bgSeq (reap parentSeq).state =
        (process echoDone s2).bind fun rs s3 =>
          Res.ret (if (0 : Int) ≠ 0 then 0 else rs) s3) := by
  have h : process sleepNode (reap parentSeq).state =
      Res.ret 0 (process sleepNode (reap parentSeq).state).state := by
    unfold sleepNode
    simp only [process]
    decide
  have hos : (process sleepNode (reap parentSeq).state).state.os =
      [{ val := 11 }, {}, {}, { val := 12 }, {}, { status := 0 }, {}] := by
    unfold sleepNode
    simp only [process]
    decide
  have hw : (Call.waitpid 10, { status := 0 }) ∈
      (process sleepNode (reap parentSeq).state).state.trace := by
    unfold sleepNode
    simp only [process]
    decide
  obtain ⟨s1, h1, h2, -⟩ :=
    (background_walk CmdType.SEP_BG {} {} { argv := ["sleep", "2"] } CmdType.SIMPLE CMD.null
      CMD.null CMD.null echoDone parent11 (by decide) (by decide)).1
      { val := 11 } {} [] rfl rfl (by decide) rfl
  obtain ⟨s2, k1, k2, -⟩ :=
    (background_walk CmdType.SEP_BG {} {} { argv := ["sleep", "2"] } CmdType.SIMPLE sleepNode
      CMD.null CMD.null echoDone (reap parentSeq).state (by decide) (by decide)).2
      0 _ { val := 11 } {} _ h hos rfl (by decide) rfl
  exact ⟨⟨s1, h1, h2 (by decide)⟩, h, hw, ⟨s2, k1, k2 (by decide)⟩⟩

/-- C14, counterexample: evaluating `sleep 1 ; sleep 2 & echo done`, the shell
waits for the child that runs `sleep 1` (pid `10`) and writes no
`Backgrounded` line for it: only `sleep 2` (pid `11`) is launched in the
background. -/
theorem background_seq_foreground :
    process bgSeq parentSeq = Res.ret 0 (process bgSeq parentSeq).state ∧
    (process bgSeq parentSeq).state.trace.map Prod.fst =
      [Call.waitany,
       Call.waitany, Call.fork, Call.signal true, Call.waitpid 10, Call.signal false,
       Call.fork, Call.fprintf "Backgrounded: 11\n",
       Call.waitany, Call.fork, Call.signal true, Call.waitpid 12, Call.signal false] ∧
    Call.waitpid 10 ∈ (process bgSeq parentSeq).state.trace.map Prod.fst ∧
    Call.fprintf "Backgrounded: 10\n" ∉ (process bgSeq parentSeq).state.trace.map Prod.fst := by
  unfold bgSeq sleepNode sleepTwo echoDone
  simp only [process, background_command, background_command_helper]
  decide

/-! ## Absent children -/

/-- C15, the failing input: on the well-formed tree of
`sleep 1 & sleep 2 & echo done` the shell launches both commands of the left
subtree and then, through `background_command_helper` on the inner `&` node,
calls `background_command` on the node of `sleep 1`, whose left child is
absent: the evaluation ends in a memory fault. -/
theorem nested_background_faults :
    wellFormed bgBg = true ∧
    process bgBg parentTwo = Res.fault (process bgBg parentTwo).state ∧
    (process bgBg parentTwo).state.trace.map Prod.fst =
      [Call.waitany, Call.fork, Call.fprintf "Backgrounded: 100\n",
       Call.fork, Call.fprintf "Backgrounded: 101\n"] ∧
    background_command_helper (CMD.node CmdType.SEP_BG {} sleepNode sleepTwo)
        (process bgBg parentTwo).state =
      Res.fault (process bgBg parentTwo).state ∧
    background_command sleepNode (process bgBg parentTwo).state =
      Res.fault (process bgBg parentTwo).state := by
  refine ⟨by decide, ?_⟩
  unfold bgBg sleepNode sleepTwo echoDone
  simp only [process, background_command, background_command_helper]
  decide

end Shell
